import Mathlib

set_option maxHeartbeats 1000000
set_option linter.unusedVariables false

namespace AAL

/-!
Verification of the double-entry ledger and amortization core of the AAL
repository (backend/app/services: accounting_service.py,
claim_right_service.py, accrual_engine_service.py).

Monetary amounts are modelled as exact rationals; the Python code computes
with floats but every compared quantity in the claims is either an exact
sum or a comparison against the 0.01 tolerance.  Dates are modelled as
calendar dates (year, month, day); the services parse "%Y-%m-%d" strings,
so the time-of-day component of the underlying datetimes is zero.
-/

/-! ## Calendar model

Gregorian dates together with the `dateutil.relativedelta` operations the
claim right service uses: addition of a number of months with end-of-month
day clamping, and the normalized (months, days) difference of two dates.
-/

def isLeapYear (y : Nat) : Bool :=
  (y % 4 == 0 && y % 100 != 0) || y % 400 == 0

def monthLength (y : Nat) (m : Nat) : Nat :=
  if m = 2 then (if isLeapYear y then 29 else 28)
  else if m = 4 ∨ m = 6 ∨ m = 9 ∨ m = 11 then 30
  else 31

structure Date where
  year : Nat
  month : Nat
  day : Nat
deriving DecidableEq

def Date.Valid (d : Date) : Prop :=
  1 ≤ d.year ∧ 1 ≤ d.month ∧ d.month ≤ 12 ∧ 1 ≤ d.day ∧ d.day ≤ monthLength d.year d.month

instance (d : Date) : Decidable d.Valid := by
  unfold Date.Valid; infer_instance

def Date.lt (a b : Date) : Prop :=
  a.year < b.year ∨ (a.year = b.year ∧ (a.month < b.month ∨ (a.month = b.month ∧ a.day < b.day)))

instance : LT Date := ⟨Date.lt⟩

def Date.le (a b : Date) : Prop :=
  a < b ∨ a = b

instance : LE Date := ⟨Date.le⟩

instance (a b : Date) : Decidable (a < b) := by
  change Decidable (Date.lt a b); unfold Date.lt; infer_instance

instance (a b : Date) : Decidable (a ≤ b) := by
  change Decidable (Date.lt a b ∨ a = b); unfold Date.lt; infer_instance

theorem Date.lt_iff {a b : Date} : a < b ↔
    (a.year < b.year ∨ (a.year = b.year ∧ (a.month < b.month ∨ (a.month = b.month ∧ a.day < b.day)))) :=
  Iff.rfl

theorem Date.le_iff {a b : Date} : a ≤ b ↔ (a < b ∨ a = b) := Iff.rfl

theorem Date.ext_parts {a b : Date} (hy : a.year = b.year) (hm : a.month = b.month)
    (hd : a.day = b.day) : a = b := by
  cases a; cases b; simp_all

theorem Date.trichotomy (a b : Date) : a < b ∨ a = b ∨ b < a := by
  cases a with
  | mk ya ma da =>
    cases b with
    | mk yb mb db =>
      simp only [Date.lt_iff, Date.mk.injEq]
      omega

theorem Date.not_lt_self (a : Date) : ¬ a < a := by
  rw [Date.lt_iff]; omega

theorem Date.lt_asymm' {a b : Date} (h : a < b) : ¬ b < a := by
  rw [Date.lt_iff] at *; omega

theorem Date.lt_of_lt_of_le' {a b c : Date} (h1 : a < b) (h2 : b ≤ c) : a < c := by
  rcases h2 with h2 | rfl
  · rw [Date.lt_iff] at *; omega
  · exact h1

theorem Date.le_of_parts {a b : Date} (hy : a.year = b.year) (hm : a.month = b.month)
    (hd : a.day ≤ b.day) : a ≤ b := by
  rcases Nat.lt_or_ge a.day b.day with h | h
  · exact Or.inl (by rw [Date.lt_iff]; omega)
  · exact Or.inr (Date.ext_parts hy hm (by omega))

/-- Month index: months elapsed since the (virtual) month 1 of year 0. -/
def Date.monthIndex (d : Date) : Nat := 12 * d.year + (d.month - 1)

/-- `relativedelta(months=n)` addition: step `n` months forward, clamping the
day to the length of the target month (dateutil end-of-month behavior). -/
def addMonths (d : Date) (n : Nat) : Date :=
  let t := d.monthIndex + n
  { year := t / 12, month := t % 12 + 1,
    day := min d.day (monthLength (t / 12) (t % 12 + 1)) }

theorem monthLength_pos (y m : Nat) : 1 ≤ monthLength y m := by
  unfold monthLength
  split
  · split <;> omega
  · split <;> omega

theorem addMonths_parts (d : Date) (n : Nat) :
    (addMonths d n).year = (d.monthIndex + n) / 12 ∧
    (addMonths d n).month = (d.monthIndex + n) % 12 + 1 ∧
    (addMonths d n).day =
      min d.day (monthLength ((d.monthIndex + n) / 12) ((d.monthIndex + n) % 12 + 1)) :=
  ⟨rfl, rfl, rfl⟩

theorem addMonths_valid {d : Date} (hd : d.Valid) (n : Nat) : (addMonths d n).Valid := by
  obtain ⟨hy, hm1, hm2, hd1, hd2⟩ := hd
  refine ⟨?_, by simp only [addMonths]; omega, by simp only [addMonths]; omega, ?_, ?_⟩
  · simp only [addMonths, Date.monthIndex]
    omega
  · simp only [addMonths]
    have := monthLength_pos ((d.monthIndex + n) / 12) ((d.monthIndex + n) % 12 + 1)
    omega
  · simp only [addMonths]
    exact Nat.min_le_right _ _

theorem addMonths_monthIndex (d : Date) (n : Nat) :
    (addMonths d n).monthIndex = d.monthIndex + n := by
  simp only [addMonths, Date.monthIndex]
  omega

theorem addMonths_zero {d : Date} (hd : d.Valid) : addMonths d 0 = d := by
  obtain ⟨hy, hm1, hm2, hd1, hd2⟩ := hd
  obtain ⟨py, pm, pd⟩ := addMonths_parts d 0
  have hyr : (d.monthIndex + 0) / 12 = d.year := by unfold Date.monthIndex; omega
  have hmo : (d.monthIndex + 0) % 12 + 1 = d.month := by unfold Date.monthIndex; omega
  apply Date.ext_parts
  · rw [py, hyr]
  · rw [pm, hmo]
  · rw [pd, hyr, hmo]
    omega

theorem monthIndex_le_of_le {a b : Date} (ha : a.month ≤ 12) (h : a ≤ b) :
    a.monthIndex ≤ b.monthIndex := by
  rcases h with h | rfl
  · rw [Date.lt_iff] at h; unfold Date.monthIndex; omega
  · exact le_rfl

theorem lt_of_monthIndex_lt {a b : Date} (ha1 : 1 ≤ a.month) (ha2 : a.month ≤ 12)
    (hb1 : 1 ≤ b.month) (hb2 : b.month ≤ 12) (h : a.monthIndex < b.monthIndex) : a < b := by
  rw [Date.lt_iff]; unfold Date.monthIndex at h; omega

theorem addMonths_lt_addMonths {d : Date} (hd : d.Valid) {n k : Nat} (h : n < k) :
    addMonths d n < addMonths d k := by
  have h1 := addMonths_valid hd n
  have h2 := addMonths_valid hd k
  apply lt_of_monthIndex_lt h1.2.1 h1.2.2.1 h2.2.1 h2.2.2.1
  rw [addMonths_monthIndex, addMonths_monthIndex]; omega

theorem addMonths_le_addMonths {d : Date} (hd : d.Valid) {n k : Nat} (h : n ≤ k) :
    addMonths d n ≤ addMonths d k := by
  rcases Nat.lt_or_ge n k with h2 | h2
  · exact Or.inl (addMonths_lt_addMonths hd h2)
  · have : n = k := by omega
    subst this; exact Or.inr rfl

theorem addMonths_base_mono {a b : Date} (ha : a.Valid) (hb : b.Valid) (h : a ≤ b) (n : Nat) :
    addMonths a n ≤ addMonths b n := by
  rcases h with h | rfl
  · rcases Nat.lt_or_ge a.monthIndex b.monthIndex with hi | hi
    · apply Or.inl
      have h1 := addMonths_valid ha n
      have h2 := addMonths_valid hb n
      apply lt_of_monthIndex_lt h1.2.1 h1.2.2.1 h2.2.1 h2.2.2.1
      rw [addMonths_monthIndex, addMonths_monthIndex]; omega
    · -- month indexes equal: same year and month, day comparison decides
      have hieq : a.monthIndex = b.monthIndex := by
        have := monthIndex_le_of_le ha.2.2.1 (Or.inl h); omega
      have hday : a.day ≤ b.day := by
        rw [Date.lt_iff] at h
        unfold Date.monthIndex at hieq
        obtain ⟨_, hm1a, hm2a, _, _⟩ := ha
        obtain ⟨_, hm1b, hm2b, _, _⟩ := hb
        omega
      obtain ⟨py1, pm1, pd1⟩ := addMonths_parts a n
      obtain ⟨py2, pm2, pd2⟩ := addMonths_parts b n
      apply Date.le_of_parts
      · rw [py1, py2, hieq]
      · rw [pm1, pm2, hieq]
      · rw [pd1, pd2, hieq]
        exact min_le_min hday le_rfl
  · exact Or.inr rfl

theorem addMonths_addMonths_le (d : Date) (a b : Nat) :
    addMonths (addMonths d a) b ≤ addMonths d (a + b) := by
  have hidx : (addMonths d a).monthIndex + b = d.monthIndex + (a + b) := by
    rw [addMonths_monthIndex]; omega
  obtain ⟨py1, pm1, pd1⟩ := addMonths_parts (addMonths d a) b
  obtain ⟨py2, pm2, pd2⟩ := addMonths_parts d (a + b)
  apply Date.le_of_parts
  · rw [py1, py2, hidx]
  · rw [pm1, pm2, hidx]
  · rw [pd1, pd2, hidx]
    exact min_le_min (Nat.min_le_left _ _) le_rfl

theorem Date.lt_of_le_of_lt' {a b c : Date} (h1 : a ≤ b) (h2 : b < c) : a < c := by
  rcases h1 with h1 | rfl
  · rw [Date.lt_iff] at *; omega
  · exact h2

theorem Date.le_trans' {a b c : Date} (h1 : a ≤ b) (h2 : b ≤ c) : a ≤ c := by
  rcases h1 with h1 | rfl
  · exact Or.inl (Date.lt_of_lt_of_le' h1 h2)
  · exact h2

/-- Number of leap years in the interval `[1, y]`. -/
def leapsUpto : Nat → Nat
  | 0 => 0
  | y + 1 => leapsUpto y + (if isLeapYear (y + 1) then 1 else 0)

/-- Total days of the first `m` months of year `y`. -/
def cumDays (y : Nat) : Nat → Nat
  | 0 => 0
  | m + 1 => cumDays y m + monthLength y (m + 1)

/-- Days elapsed before January 1 of year `y` (years counted from 1). -/
def daysBefore (y : Nat) : Nat := 365 * (y - 1) + leapsUpto (y - 1)

/-- Proleptic-Gregorian day number of a date; models Python date subtraction:
`(a - b).days = ord a - ord b`. -/
def ord (d : Date) : Nat := daysBefore d.year + cumDays d.year (d.month - 1) + d.day

theorem cumDays_succ (y m : Nat) : cumDays y (m + 1) = cumDays y m + monthLength y (m + 1) := rfl

theorem cumDays_mono (y : Nat) {m1 m2 : Nat} (h : m1 ≤ m2) : cumDays y m1 ≤ cumDays y m2 := by
  induction h with
  | refl => exact le_rfl
  | @step m hm ih => exact le_trans ih (Nat.le_add_right _ _)

theorem cumDays_step (y : Nat) {m : Nat} (hm : 1 ≤ m) :
    cumDays y (m - 1) + monthLength y m = cumDays y m := by
  obtain ⟨k, rfl⟩ : ∃ k, m = k + 1 := ⟨m - 1, by omega⟩
  simp only [Nat.add_sub_cancel]
  rfl

theorem cumDays_twelve (y : Nat) : cumDays y 12 = 365 + (if isLeapYear y then 1 else 0) := by
  show cumDays y 11 + monthLength y 12 = _
  show cumDays y 10 + monthLength y 11 + monthLength y 12 = _
  show cumDays y 9 + monthLength y 10 + monthLength y 11 + monthLength y 12 = _
  show cumDays y 8 + monthLength y 9 + monthLength y 10 + monthLength y 11 + monthLength y 12 = _
  show cumDays y 7 + monthLength y 8 + monthLength y 9 + monthLength y 10 + monthLength y 11 +
    monthLength y 12 = _
  show cumDays y 6 + monthLength y 7 + monthLength y 8 + monthLength y 9 + monthLength y 10 +
    monthLength y 11 + monthLength y 12 = _
  show cumDays y 5 + monthLength y 6 + monthLength y 7 + monthLength y 8 + monthLength y 9 +
    monthLength y 10 + monthLength y 11 + monthLength y 12 = _
  show cumDays y 4 + monthLength y 5 + monthLength y 6 + monthLength y 7 + monthLength y 8 +
    monthLength y 9 + monthLength y 10 + monthLength y 11 + monthLength y 12 = _
  show cumDays y 3 + monthLength y 4 + monthLength y 5 + monthLength y 6 + monthLength y 7 +
    monthLength y 8 + monthLength y 9 + monthLength y 10 + monthLength y 11 + monthLength y 12 = _
  show cumDays y 2 + monthLength y 3 + monthLength y 4 + monthLength y 5 + monthLength y 6 +
    monthLength y 7 + monthLength y 8 + monthLength y 9 + monthLength y 10 + monthLength y 11 +
    monthLength y 12 = _
  show cumDays y 1 + monthLength y 2 + monthLength y 3 + monthLength y 4 + monthLength y 5 +
    monthLength y 6 + monthLength y 7 + monthLength y 8 + monthLength y 9 + monthLength y 10 +
    monthLength y 11 + monthLength y 12 = _
  show cumDays y 0 + monthLength y 1 + monthLength y 2 + monthLength y 3 + monthLength y 4 +
    monthLength y 5 + monthLength y 6 + monthLength y 7 + monthLength y 8 + monthLength y 9 +
    monthLength y 10 + monthLength y 11 + monthLength y 12 = _
  show 0 + monthLength y 1 + monthLength y 2 + monthLength y 3 + monthLength y 4 +
    monthLength y 5 + monthLength y 6 + monthLength y 7 + monthLength y 8 + monthLength y 9 +
    monthLength y 10 + monthLength y 11 + monthLength y 12 = _
  simp only [monthLength]
  norm_num
  split <;> omega

theorem leapsUpto_mono {y1 y2 : Nat} (h : y1 ≤ y2) : leapsUpto y1 ≤ leapsUpto y2 := by
  induction h with
  | refl => exact le_rfl
  | @step m hm ih => exact le_trans ih (Nat.le_add_right _ _)

theorem daysBefore_succ {y : Nat} (hy : 1 ≤ y) :
    daysBefore (y + 1) = daysBefore y + 365 + (if isLeapYear y then 1 else 0) := by
  obtain ⟨k, rfl⟩ : ∃ k, y = k + 1 := ⟨y - 1, by omega⟩
  unfold daysBefore
  have h1 : (k + 1 + 1 - 1) = k + 1 := by omega
  have h2 : (k + 1 - 1) = k := by omega
  rw [h1, h2]
  show 365 * (k + 1) + (leapsUpto k + (if isLeapYear (k + 1) then 1 else 0)) = _
  split <;> omega

theorem daysBefore_mono {y1 y2 : Nat} (h : y1 ≤ y2) : daysBefore y1 ≤ daysBefore y2 := by
  unfold daysBefore
  have := leapsUpto_mono (show y1 - 1 ≤ y2 - 1 by omega)
  omega

/-- A valid date's day number is bounded by the start of the next year. -/
theorem ord_le_year_end {d : Date} (hd : d.Valid) : ord d ≤ daysBefore (d.year + 1) := by
  obtain ⟨hy, hm1, hm2, hd1, hd2⟩ := hd
  have hstep := cumDays_step d.year hm1
  have hmono := cumDays_mono d.year (show d.month ≤ 12 from hm2)
  have h12 := cumDays_twelve d.year
  have hsucc := daysBefore_succ hy
  unfold ord
  split at h12 <;> split at hsucc <;> omega

theorem ord_lt_ord {a b : Date} (ha : a.Valid) (hb : b.Valid) (h : a < b) : ord a < ord b := by
  rcases h with hy | ⟨hyeq, hm | ⟨hmeq, hd⟩⟩
  · -- strictly earlier year
    have h1 := ord_le_year_end ha
    have h2 := daysBefore_mono (show a.year + 1 ≤ b.year by omega)
    have h3 : 1 ≤ b.day := hb.2.2.2.1
    unfold ord
    unfold ord at h1
    omega
  · -- same year, strictly earlier month
    obtain ⟨hya, hm1a, hm2a, hd1a, hd2a⟩ := ha
    obtain ⟨hyb, hm1b, hm2b, hd1b, hd2b⟩ := hb
    have hstep := cumDays_step a.year hm1a
    have hmono := cumDays_mono a.year (show a.month ≤ b.month - 1 by omega)
    unfold ord
    rw [hyeq] at hstep hmono hd2a ⊢
    omega
  · -- same year and month
    unfold ord
    rw [hyeq, hmeq]
    omega

theorem ord_le_ord {a b : Date} (ha : a.Valid) (hb : b.Valid) (h : a ≤ b) : ord a ≤ ord b := by
  rcases h with h | rfl
  · exact le_of_lt (ord_lt_ord ha hb h)
  · exact le_rfl

theorem lt_of_ord_lt {a b : Date} (ha : a.Valid) (hb : b.Valid) (h : ord a < ord b) : a < b := by
  rcases Date.trichotomy a b with h1 | rfl | h1
  · exact h1
  · omega
  · exact absurd (ord_lt_ord hb ha h1) (by omega)

/-! ### relativedelta difference

`relativedelta(e, s)` for dates `s ≤ e`: dateutil first takes the raw month
difference, then decrements it while `e < s + months` (for pure dates a single
decrement suffices), and finally measures the leftover days against the
anchor `s + months`.  `years`/`months` of the result are the quotient and
remainder of `monthsDiff` by 12; `days` is `daysDiff`. -/

def monthsDiff (s e : Date) : Nat :=
  if e < addMonths s (e.monthIndex - s.monthIndex) then e.monthIndex - s.monthIndex - 1
  else e.monthIndex - s.monthIndex

def relDeltaAnchor (s e : Date) : Date := addMonths s (monthsDiff s e)

def daysDiff (s e : Date) : Nat := ord e - ord (relDeltaAnchor s e)

theorem relDeltaAnchor_le {s e : Date} (hs : s.Valid) (he : e.Valid) (hse : s ≤ e) :
    relDeltaAnchor s e ≤ e := by
  unfold relDeltaAnchor monthsDiff
  have hidx : s.monthIndex ≤ e.monthIndex := monthIndex_le_of_le hs.2.2.1 hse
  split
  · next hlt =>
    -- dateutil decrements once; the anchor then sits in the month before `e`
    have hmd0 : 1 ≤ e.monthIndex - s.monthIndex := by
      by_contra hc
      have h0 : e.monthIndex - s.monthIndex = 0 := by omega
      rw [h0, addMonths_zero hs] at hlt
      exact Date.not_lt_self e (Date.lt_of_lt_of_le' hlt hse)
    apply Or.inl
    have hv := addMonths_valid hs (e.monthIndex - s.monthIndex - 1)
    apply lt_of_monthIndex_lt hv.2.1 hv.2.2.1 he.2.1 he.2.2.1
    rw [addMonths_monthIndex]
    omega
  · next hge =>
    rcases Date.trichotomy e (addMonths s (e.monthIndex - s.monthIndex)) with h1 | h1 | h1
    · exact absurd h1 hge
    · exact Or.inr h1.symm
    · exact Or.inl h1

theorem relDeltaAnchor_valid {s : Date} (hs : s.Valid) (e : Date) :
    (relDeltaAnchor s e).Valid := addMonths_valid hs _

theorem relDeltaAnchor_lt_of_daysDiff_pos {s e : Date} (hs : s.Valid) (he : e.Valid)
    (hdd : 0 < daysDiff s e) : relDeltaAnchor s e < e := by
  unfold daysDiff at hdd
  exact lt_of_ord_lt (relDeltaAnchor_valid hs e) he (by omega)

theorem relDeltaAnchor_eq_of_daysDiff_zero {s e : Date} (hs : s.Valid) (he : e.Valid)
    (hse : s ≤ e) (hdd : daysDiff s e = 0) : relDeltaAnchor s e = e := by
  rcases relDeltaAnchor_le hs he hse with h | h
  · exfalso
    have := ord_lt_ord (relDeltaAnchor_valid hs e) he h
    unfold daysDiff at hdd
    omega
  · exact h

/-- Core clipping fact: stepping fewer months forward than the normalized month
difference (or exactly as many when leftover days remain) stays before `e`. -/
theorem addMonths_lt_end {s e : Date} (hs : s.Valid) (he : e.Valid) (hse : s ≤ e) {n : Nat}
    (h : n < monthsDiff s e ∨ (n ≤ monthsDiff s e ∧ 0 < daysDiff s e)) :
    addMonths s n < e := by
  rcases h with h | ⟨h, hdd⟩
  · exact Date.lt_of_lt_of_le' (addMonths_lt_addMonths hs h) (relDeltaAnchor_le hs he hse)
  · exact Date.lt_of_le_of_lt' (addMonths_le_addMonths hs h)
      (relDeltaAnchor_lt_of_daysDiff_pos hs he hdd)

theorem monthsDiff_daysDiff_pos {s e : Date} (hs : s.Valid) (he : e.Valid) (hlt : s < e) :
    0 < monthsDiff s e ∨ 0 < daysDiff s e := by
  by_contra hc
  push_neg at hc
  have hmd : monthsDiff s e = 0 := by omega
  have hdd : daysDiff s e = 0 := by omega
  have h := relDeltaAnchor_eq_of_daysDiff_zero hs he (Or.inl hlt) hdd
  unfold relDeltaAnchor at h
  rw [hmd, addMonths_zero hs] at h
  rw [h] at hlt
  exact Date.not_lt_self e hlt

/-! ## claim_right_service.determine_amortization_periods -/

def relativedeltaYears (s e : Date) : Nat := monthsDiff s e / 12

def relativedeltaMonths (s e : Date) : Nat := monthsDiff s e % 12

def relativedeltaDays (s e : Date) : Nat := daysDiff s e

def determine_amortization_periods (start_date end_date : Date) (frequency : String) : Nat :=
  if frequency = "monthly" then
    relativedeltaYears start_date end_date * 12 + relativedeltaMonths start_date end_date +
      (if 0 < relativedeltaDays start_date end_date then 1 else 0)
  else if frequency = "quarterly" then
    (relativedeltaYears start_date end_date * 12 + relativedeltaMonths start_date end_date +
      (if 0 < relativedeltaDays start_date end_date then 1 else 0) + 2) / 3
  else if frequency = "yearly" then
    relativedeltaYears start_date end_date +
      (if 0 < relativedeltaMonths start_date end_date ∨ 0 < relativedeltaDays start_date end_date
       then 1 else 0)
  else
    relativedeltaYears start_date end_date * 12 + relativedeltaMonths start_date end_date +
      (if 0 < relativedeltaDays start_date end_date then 1 else 0)

theorem determine_pos {s e : Date} (hs : s.Valid) (he : e.Valid) (hlt : s < e)
    (frequency : String) : 1 ≤ determine_amortization_periods s e frequency := by
  have hpos := monthsDiff_daysDiff_pos hs he hlt
  unfold determine_amortization_periods relativedeltaYears relativedeltaMonths relativedeltaDays
  split_ifs <;> omega

/-! ## Schedule generation (generate_amortization_schedule, loop part) -/

structure AmortizationEntryGen where
  period_number : Nat
  period_start : Date
  period_end : Date
  amount : ℚ
  status : String
deriving DecidableEq

/-- One `frequency` step of the schedule loop (unknown frequencies step one
calendar month, like the source's final `else` branch). -/
def periodStep (frequency : String) (current_date : Date) : Date :=
  if frequency = "monthly" then addMonths current_date 1
  else if frequency = "quarterly" then addMonths current_date 3
  else if frequency = "yearly" then addMonths current_date 12
  else addMonths current_date 1

def stepMonths (frequency : String) : Nat :=
  if frequency = "monthly" then 1
  else if frequency = "quarterly" then 3
  else if frequency = "yearly" then 12 else 1

theorem periodStep_eq (frequency : String) (current_date : Date) :
    periodStep frequency current_date = addMonths current_date (stepMonths frequency) := by
  unfold periodStep stepMonths
  split_ifs <;> rfl

/-- The `while current_date < claim.end_date and period_number <= total_periods`
loop; the second conjunct is encoded by the fuel argument, which starts at
`total_periods` while `period_number` starts at 1. -/
def scheduleLoop (claim_start claim_end : Date) (frequency : String)
    (total_amount amount_per_period : ℚ) (total_periods : Nat) :
    Date → Nat → Nat → List AmortizationEntryGen
  | _, _, 0 => []
  | current_date, period_number, fuel + 1 =>
    if current_date < claim_end then
      let pe := periodStep frequency current_date
      let period_end := if claim_end < pe then claim_end else pe
      let amount1 : ℚ :=
        if claim_end < pe then
          (if 0 < ord claim_end - ord claim_start then
            total_amount * (((ord claim_end - ord current_date : Nat) : ℚ) /
              ((ord claim_end - ord claim_start : Nat) : ℚ))
          else amount_per_period)
        else amount_per_period
      let amount : ℚ :=
        if period_number = total_periods then
          total_amount - ((period_number - 1 : Nat) : ℚ) * amount_per_period
        else amount1
      { period_number := period_number, period_start := current_date,
        period_end := period_end, amount := amount, status := "PENDING" } ::
        scheduleLoop claim_start claim_end frequency total_amount amount_per_period
          total_periods period_end (period_number + 1) fuel
    else []

/-- Period computation of `generate_amortization_schedule`: number of periods,
per-period amount `total / periods`, and the entry list produced by the loop;
`none` models the `ValueError` raised when the period count is not positive.
(The source computes `total_periods` once; it is repeated here verbatim.) -/
def schedule_period_entries (claim_start claim_end : Date) (frequency : String)
    (total_amount : ℚ) : Option (List AmortizationEntryGen) :=
  if determine_amortization_periods claim_start claim_end frequency = 0 then none
  else
    some (scheduleLoop claim_start claim_end frequency total_amount
      (total_amount / ((determine_amortization_periods claim_start claim_end frequency : Nat) : ℚ))
      (determine_amortization_periods claim_start claim_end frequency)
      claim_start 1 (determine_amortization_periods claim_start claim_end frequency))

theorem walk_le {s : Date} (hs : s.Valid) (frequency : String) (n : Nat) :
    ((periodStep frequency)^[n] s).Valid ∧
    (periodStep frequency)^[n] s ≤ addMonths s (n * stepMonths frequency) := by
  induction n with
  | zero =>
    constructor
    · rw [Function.iterate_zero_apply]; exact hs
    · rw [Function.iterate_zero_apply, Nat.zero_mul, addMonths_zero hs]
      exact Or.inr rfl
  | succ n ih =>
    obtain ⟨ihv, ihle⟩ := ih
    rw [Function.iterate_succ_apply', periodStep_eq]
    constructor
    · exact addMonths_valid ihv _
    · have hstep1 : addMonths ((periodStep frequency)^[n] s) (stepMonths frequency)
          ≤ addMonths (addMonths s (n * stepMonths frequency)) (stepMonths frequency) :=
        addMonths_base_mono ihv (addMonths_valid hs _) ihle _
      have hstep2 := addMonths_addMonths_le s (n * stepMonths frequency) (stepMonths frequency)
      have harith : n * stepMonths frequency + stepMonths frequency =
          (n + 1) * stepMonths frequency := (Nat.succ_mul _ _).symm
      rw [harith] at hstep2
      exact Date.le_trans' hstep1 hstep2

/-- Before the final period, the loop's walked date is strictly before the
claim's end date, so no clipping happens except possibly in the last period. -/
theorem walk_lt_end {s e : Date} (hs : s.Valid) (he : e.Valid) (hlt : s < e)
    (frequency : String) {j : Nat}
    (hj : j < determine_amortization_periods s e frequency) :
    (periodStep frequency)^[j] s < e := by
  obtain ⟨hv, hle⟩ := walk_le hs frequency j
  apply Date.lt_of_le_of_lt' hle
  apply addMonths_lt_end hs he (Or.inl hlt)
  unfold determine_amortization_periods relativedeltaYears relativedeltaMonths
    relativedeltaDays at hj
  unfold stepMonths
  split_ifs at hj ⊢ <;> omega

theorem scheduleLoop_sum (s e : Date) (frequency : String) (total app : ℚ) (p : Nat)
    (hp : 1 ≤ p) (happ : app = total / (p : ℚ))
    (hK : ∀ j, j < p → (periodStep frequency)^[j] s < e) :
    ∀ fuel period_number, 1 ≤ period_number → period_number + fuel = p + 1 →
      (List.map AmortizationEntryGen.amount
        (scheduleLoop s e frequency total app p
          ((periodStep frequency)^[period_number - 1] s) period_number fuel)).sum
        = total - ((period_number - 1 : Nat) : ℚ) * app := by
  intro fuel
  induction fuel with
  | zero =>
    intro pn h1 h2
    have hpn : pn = p + 1 := by omega
    subst hpn
    show (List.map _ []).sum = _
    simp only [List.map_nil, List.sum_nil, Nat.add_sub_cancel]
    have hne : ((p : Nat) : ℚ) ≠ 0 := Nat.cast_ne_zero.mpr (by omega)
    rw [happ]
    field_simp
  | succ fuel ih =>
    intro pn h1 h2
    obtain ⟨n, rfl⟩ : ∃ n, pn = n + 1 := ⟨pn - 1, by omega⟩
    have hcur : (periodStep frequency)^[n + 1 - 1] s < e := hK _ (by omega)
    rw [scheduleLoop, if_pos hcur]
    simp only [List.map_cons, List.sum_cons]
    rcases Nat.eq_zero_or_pos fuel with hf0 | hfpos
    · -- final period: the amount is overridden to total minus the allocation so far
      subst hf0
      have hlast : n + 1 = p := by omega
      rw [if_pos hlast]
      show (total - ((n + 1 - 1 : Nat) : ℚ) * app) +
        (List.map _ (scheduleLoop s e frequency total app p _ (n + 1 + 1) 0)).sum = _
      rw [scheduleLoop]
      simp only [List.map_nil, List.sum_nil, add_zero]
    · -- intermediate period: no clipping, amount is amount_per_period
      have hne : ¬ (n + 1 = p) := by omega
      have hpe : periodStep frequency ((periodStep frequency)^[n + 1 - 1] s) =
          (periodStep frequency)^[n + 1] s := by
        simp only [Nat.add_sub_cancel]
        exact (Function.iterate_succ_apply' _ _ _).symm
      have hnext : (periodStep frequency)^[n + 1] s < e := hK _ (by omega)
      have hnoclip : ¬ (e < periodStep frequency ((periodStep frequency)^[n + 1 - 1] s)) := by
        rw [hpe]
        exact Date.lt_asymm' hnext
      rw [if_neg hne, if_neg hnoclip, if_neg hnoclip, hpe]
      have htail := ih (n + 1 + 1) (by omega) (by omega)
      simp only [Nat.add_sub_cancel] at htail
      rw [htail]
      simp only [Nat.add_sub_cancel]
      push_cast
      ring

/-- Changing the frequency string changes the schedule loop's behavior only
through `periodStep`. -/
theorem scheduleLoop_freq_congr (claim_start claim_end : Date) (f1 f2 : String)
    (total app : ℚ) (p : Nat) (hstep : ∀ c, periodStep f1 c = periodStep f2 c) :
    ∀ fuel current pn, scheduleLoop claim_start claim_end f1 total app p current pn fuel =
      scheduleLoop claim_start claim_end f2 total app p current pn fuel := by
  intro fuel
  induction fuel with
  | zero => intro current pn; rfl
  | succ fuel ih =>
    intro current pn
    simp only [scheduleLoop, hstep, ih]

/-! ## Claim C3 -/

/-- C3: for every claim right whose end date is strictly after its start date,
the amounts of the generated amortization schedule sum to the claim's total
amount exactly; the last period's amount is forced to the total minus the sum
already allocated, so proration and rounding drift cannot change the sum. -/
theorem schedule_amounts_sum_exact {s e : Date} (hs : s.Valid) (he : e.Valid) (hlt : s < e)
    (frequency : String) (total_amount : ℚ) :
    ∃ entries, schedule_period_entries s e frequency total_amount = some entries ∧
      (entries.map AmortizationEntryGen.amount).sum = total_amount := by
  have hp := determine_pos hs he hlt frequency
  have hK : ∀ j, j < determine_amortization_periods s e frequency →
      (periodStep frequency)^[j] s < e := fun j hj => walk_lt_end hs he hlt frequency hj
  have hsum := scheduleLoop_sum s e frequency total_amount
    (total_amount / ((determine_amortization_periods s e frequency : Nat) : ℚ))
    (determine_amortization_periods s e frequency) hp rfl hK
    (determine_amortization_periods s e frequency) 1 (by omega) (by omega)
  unfold schedule_period_entries
  rw [if_neg (by omega)]
  refine ⟨_, rfl, ?_⟩
  norm_num [Function.iterate_zero_apply] at hsum
  exact hsum

theorem schedule_amounts_sum_exact_witness :
    ∃ entries, schedule_period_entries ⟨2, 1, 10⟩ ⟨2, 4, 1⟩ "monthly" 100 = some entries ∧
      (entries.map AmortizationEntryGen.amount).sum = 100 :=
  schedule_amounts_sum_exact (by decide) (by decide) (by decide) "monthly" 100

/-! ## Claim C8 -/

/-- Spec §4.4: monthly period count, whole calendar months spanned with one
extra period for a trailing fraction of a month. -/
def specPeriodsMonthly (s e : Date) : Nat :=
  monthsDiff s e + (if 0 < daysDiff s e then 1 else 0)

/-- Spec §4.4: quarterly period count, the ceiling of the month count over 3. -/
def specPeriodsQuarterly (s e : Date) : Nat :=
  specPeriodsMonthly s e / 3 + (if specPeriodsMonthly s e % 3 = 0 then 0 else 1)

/-- Spec §4.4: yearly period count, whole years spanned with one extra period
for a trailing fraction of a year. -/
def specPeriodsYearly (s e : Date) : Nat :=
  monthsDiff s e / 12 + (if monthsDiff s e % 12 = 0 ∧ daysDiff s e = 0 then 0 else 1)

/-- C8: determine_amortization_periods returns the spec's period count for the
monthly, quarterly and yearly frequencies, and the result is at least 1 for
every frequency string whenever end_date is strictly after start_date. -/
theorem determine_periods_matches_spec {s e : Date} (hs : s.Valid) (he : e.Valid)
    (hlt : s < e) :
    determine_amortization_periods s e "monthly" = specPeriodsMonthly s e ∧
    determine_amortization_periods s e "quarterly" = specPeriodsQuarterly s e ∧
    determine_amortization_periods s e "yearly" = specPeriodsYearly s e ∧
    (∀ frequency : String, 1 ≤ determine_amortization_periods s e frequency) := by
  have hm : determine_amortization_periods s e "monthly" =
      relativedeltaYears s e * 12 + relativedeltaMonths s e +
        (if 0 < relativedeltaDays s e then 1 else 0) := rfl
  have hq : determine_amortization_periods s e "quarterly" =
      (relativedeltaYears s e * 12 + relativedeltaMonths s e +
        (if 0 < relativedeltaDays s e then 1 else 0) + 2) / 3 := rfl
  have hy : determine_amortization_periods s e "yearly" =
      relativedeltaYears s e +
        (if 0 < relativedeltaMonths s e ∨ 0 < relativedeltaDays s e then 1 else 0) := rfl
  refine ⟨?_, ?_, ?_, fun frequency => determine_pos hs he hlt frequency⟩
  · rw [hm]
    unfold specPeriodsMonthly relativedeltaYears relativedeltaMonths relativedeltaDays
    split_ifs <;> omega
  · rw [hq]
    unfold specPeriodsQuarterly specPeriodsMonthly relativedeltaYears relativedeltaMonths
      relativedeltaDays
    split_ifs <;> omega
  · rw [hy]
    unfold specPeriodsYearly relativedeltaYears relativedeltaMonths relativedeltaDays
    split_ifs <;> omega

theorem determine_periods_matches_spec_witness :
    determine_amortization_periods ⟨2, 1, 10⟩ ⟨2, 3, 1⟩ "monthly" =
      specPeriodsMonthly ⟨2, 1, 10⟩ ⟨2, 3, 1⟩ ∧
    determine_amortization_periods ⟨2, 1, 10⟩ ⟨2, 3, 1⟩ "quarterly" =
      specPeriodsQuarterly ⟨2, 1, 10⟩ ⟨2, 3, 1⟩ ∧
    determine_amortization_periods ⟨2, 1, 10⟩ ⟨2, 3, 1⟩ "yearly" =
      specPeriodsYearly ⟨2, 1, 10⟩ ⟨2, 3, 1⟩ ∧
    (∀ frequency : String, 1 ≤ determine_amortization_periods ⟨2, 1, 10⟩ ⟨2, 3, 1⟩ frequency) :=
  determine_periods_matches_spec (by decide) (by decide) (by decide)

/-! ## Claim C10 -/

/-- C10: a frequency string outside monthly, quarterly and yearly is silently
treated as monthly: the period count and the generated schedule entries both
equal the monthly ones, with no error. -/
theorem unknown_frequency_treated_as_monthly (s e : Date) (frequency : String)
    (h1 : frequency ≠ "monthly") (h2 : frequency ≠ "quarterly") (h3 : frequency ≠ "yearly")
    (total_amount : ℚ) :
    determine_amortization_periods s e frequency =
      determine_amortization_periods s e "monthly" ∧
    schedule_period_entries s e frequency total_amount =
      schedule_period_entries s e "monthly" total_amount := by
  have hdet : determine_amortization_periods s e frequency =
      determine_amortization_periods s e "monthly" := by
    unfold determine_amortization_periods
    rw [if_neg h1, if_neg h2, if_neg h3, if_pos rfl]
  refine ⟨hdet, ?_⟩
  have hstep : ∀ c, periodStep frequency c = periodStep "monthly" c := by
    intro c
    unfold periodStep
    rw [if_neg h1, if_neg h2, if_neg h3, if_pos rfl]
  unfold schedule_period_entries
  rw [hdet, scheduleLoop_freq_congr s e frequency "monthly" _ _ _ hstep]

theorem unknown_frequency_treated_as_monthly_witness :
    determine_amortization_periods ⟨2, 1, 10⟩ ⟨2, 3, 1⟩ "weekly" =
      determine_amortization_periods ⟨2, 1, 10⟩ ⟨2, 3, 1⟩ "monthly" ∧
    schedule_period_entries ⟨2, 1, 10⟩ ⟨2, 3, 1⟩ "weekly" 100 =
      schedule_period_entries ⟨2, 1, 10⟩ ⟨2, 3, 1⟩ "monthly" 100 :=
  unknown_frequency_treated_as_monthly ⟨2, 1, 10⟩ ⟨2, 3, 1⟩ "weekly"
    (by decide) (by decide) (by decide) 100

/-! ## Relational state model

Rows of the tables the claims touch (db/sql.py), with the audit timestamp
columns omitted and `posted_at`/`cancellation_date` modelled as an abstract
tick supplied by the caller (`datetime.utcnow()` in the source).  The account
hierarchy (`parent_id`) is not touched by any claim and is omitted. -/

structure AccountRec where
  id : Nat
  code : String
  name : String
  account_type : String
  is_active : Bool
deriving DecidableEq

structure JournalEntryRec where
  id : Nat
  ledger_entry_id : Option Nat
  entry_date : Date
  reference : String
  description : String
  memo : Option String
  is_balanced : Bool
  is_adjusting : Bool
deriving DecidableEq

structure JournalEntryLineRec where
  journal_entry_id : Nat
  account_id : Nat
  debit : ℚ
  credit : ℚ
  description : Option String
deriving DecidableEq

structure LedgerEntryRec where
  id : Nat
  vendor : Option String
  total : Option ℚ
  amount : Option ℚ
  payment_method : Option String
  category : Option String
  record_id : String
  entry_date : Date
deriving DecidableEq

structure ClaimRightRec where
  id : Nat
  user_id : Nat
  ledger_entry_id : Option Nat
  claim_type : String
  description : String
  total_amount : ℚ
  remaining_amount : ℚ
  amortized_amount : ℚ
  start_date : Date
  end_date : Date
  frequency : String
  status : String
  cancellation_date : Option Nat
  cancellation_reason : Option String
  is_probable : Bool
  is_measurable : Bool
deriving DecidableEq

structure AmortizationScheduleRec where
  id : Nat
  claim_right_id : Nat
  total_periods : Nat
  amount_per_period : ℚ
  is_generated : Bool
deriving DecidableEq

structure AmortizationEntryRec where
  id : Nat
  claim_right_id : Nat
  schedule_id : Nat
  period_number : Nat
  period_start : Date
  period_end : Date
  amount : ℚ
  status : String
  posted_at : Option Nat
  journal_entry_id : Option Nat
deriving DecidableEq

structure DB where
  accounts : List AccountRec
  journal_entries : List JournalEntryRec
  journal_entry_lines : List JournalEntryLineRec
  ledger_entries : List LedgerEntryRec
  claim_rights : List ClaimRightRec
  amortization_schedules : List AmortizationScheduleRec
  amortization_entries : List AmortizationEntryRec
  next_id : Nat
deriving DecidableEq

/-! ## accounting_service: mapping tables and account helpers -/

def CATEGORY_TO_EXPENSE_ACCOUNT : List (String × String) :=
  [("Food & Beverage", "5100"), ("Transportation", "5200"), ("Accommodation", "5300"),
   ("Office Supplies", "5400"), ("Utilities", "5500"), ("Healthcare", "5600"),
   ("Entertainment", "5700"), ("Retail/Shopping", "5800"), ("Professional Services", "5900"),
   ("Software/Technology", "5910"), ("Travel", "5920"), ("Education", "5930"),
   ("General Expense", "5990")]

/-- `CATEGORY_TO_EXPENSE_ACCOUNT.get(category, "5990")`; a `None` category also
falls back to the General Expense code. -/
def category_expense_code (category : Option String) : String :=
  match category with
  | none => "5990"
  | some c => (CATEGORY_TO_EXPENSE_ACCOUNT.lookup c).getD "5990"

def PAYMENT_METHOD_TO_ACCOUNT : List (String × String) :=
  [("cash", "1100"), ("credit card", "2200"), ("credit", "2200"), ("debit card", "1100"),
   ("bank transfer", "1100"), ("check", "1100"), ("accounts payable", "2100")]

def DEFAULT_ACCOUNTS : List (String × String × String) :=
  [("1000", "Assets", "asset"), ("1100", "Cash", "asset"),
   ("1200", "Accounts Receivable", "asset"), ("1300", "Petty Cash", "asset"),
   ("2000", "Liabilities", "liability"), ("2100", "Accounts Payable", "liability"),
   ("2200", "Credit Card Payable", "liability"),
   ("3000", "Equity", "equity"), ("3100", "Owner Equity", "equity"),
   ("3200", "Retained Earnings", "equity"),
   ("4000", "Revenue", "revenue"), ("4100", "Sales Revenue", "revenue"),
   ("4200", "Service Revenue", "revenue"),
   ("5000", "Expenses", "expense"), ("5100", "Food & Beverage Expense", "expense"),
   ("5200", "Transportation Expense", "expense"), ("5300", "Accommodation Expense", "expense"),
   ("5400", "Office Supplies Expense", "expense"), ("5500", "Utilities Expense", "expense"),
   ("5600", "Healthcare Expense", "expense"), ("5700", "Entertainment Expense", "expense"),
   ("5800", "Retail/Shopping Expense", "expense"),
   ("5900", "Professional Services Expense", "expense"),
   ("5910", "Software/Technology Expense", "expense"), ("5920", "Travel Expense", "expense"),
   ("5930", "Education Expense", "expense"), ("5990", "General Expense", "expense")]

def find_account_by_code (db : DB) (code : String) : Option AccountRec :=
  db.accounts.find? fun a => a.code == code

/-- initialize_chart_of_accounts: inserts the default chart when no account
exists yet (the parent-link second pass is not modelled, see above). -/
def initialize_chart_of_accounts (db : DB) : DB :=
  if 0 < db.accounts.length then db
  else
    { db with
      accounts := db.accounts ++
        ((List.range DEFAULT_ACCOUNTS.length).zip DEFAULT_ACCOUNTS).map fun p =>
          { id := db.next_id + p.1, code := p.2.1, name := p.2.2.1,
            account_type := p.2.2.2, is_active := true },
      next_id := db.next_id + DEFAULT_ACCOUNTS.length }

/-! ## accounting_service.create_journal_entry -/

/-- A caller-supplied journal line dictionary; the source reads `debit` and
`credit` with `.get(_, 0)`, so the numeric fields are totals after that
defaulting. -/
structure LineInput where
  account_id : Nat
  debit : ℚ
  credit : ℚ
  description : Option String
deriving DecidableEq

/-- create_journal_entry: validates the 0.01 balance tolerance, then persists
the entry and all of its lines in one transaction; the error branch models
the raised `ValueError` after rollback (no write). -/
def create_journal_entry (db : DB) (ledger_entry_id : Option Nat) (entry_date : Date)
    (reference description : String) (lines : List LineInput) (memo : Option String) :
    DB × Except String Nat :=
  let total_debits := (lines.map LineInput.debit).sum
  let total_credits := (lines.map LineInput.credit).sum
  if 1/100 < |total_debits - total_credits| then
    (db, Except.error "Journal entry not balanced")
  else
    let je : JournalEntryRec :=
      { id := db.next_id, ledger_entry_id := ledger_entry_id, entry_date := entry_date,
        reference := reference, description := description, memo := memo,
        is_balanced := true, is_adjusting := false }
    ({ db with
        journal_entries := db.journal_entries ++ [je],
        journal_entry_lines := db.journal_entry_lines ++ lines.map (fun l =>
          { journal_entry_id := je.id, account_id := l.account_id, debit := l.debit,
            credit := l.credit, description := l.description }),
        next_id := db.next_id + 1 },
     Except.ok je.id)

/-! ## Claim C1 -/

/-- C1: if the lines' debit and credit sums differ by more than 0.01,
create_journal_entry fails with a validation error and persists nothing;
otherwise it returns ok and the journal entry together with every one of its
lines is persisted. -/
theorem create_journal_entry_validates_and_persists (db : DB) (ledger_entry_id : Option Nat)
    (entry_date : Date) (reference description : String) (lines : List LineInput)
    (memo : Option String) :
    (1/100 < |(lines.map LineInput.debit).sum - (lines.map LineInput.credit).sum| →
      (create_journal_entry db ledger_entry_id entry_date reference description lines memo).1
          = db ∧
      ∃ msg, (create_journal_entry db ledger_entry_id entry_date reference description lines
          memo).2 = Except.error msg) ∧
    (|(lines.map LineInput.debit).sum - (lines.map LineInput.credit).sum| ≤ 1/100 →
      ∃ jeid,
        (create_journal_entry db ledger_entry_id entry_date reference description lines
          memo).2 = Except.ok jeid ∧
        (∃ je ∈ (create_journal_entry db ledger_entry_id entry_date reference description lines
            memo).1.journal_entries,
          je.id = jeid ∧ je.ledger_entry_id = ledger_entry_id ∧ je.entry_date = entry_date ∧
            je.reference = reference ∧ je.description = description ∧ je.memo = memo) ∧
        (∀ l ∈ lines,
          ({ journal_entry_id := jeid, account_id := l.account_id, debit := l.debit,
             credit := l.credit, description := l.description } : JournalEntryLineRec) ∈
            (create_journal_entry db ledger_entry_id entry_date reference description lines
              memo).1.journal_entry_lines)) := by
  constructor
  · intro himb
    unfold create_journal_entry
    rw [if_pos himb]
    exact ⟨rfl, _, rfl⟩
  · intro hbal
    unfold create_journal_entry
    rw [if_neg (by push_neg; exact hbal)]
    refine ⟨db.next_id, rfl,
      ⟨{ id := db.next_id, ledger_entry_id := ledger_entry_id, entry_date := entry_date,
         reference := reference, description := description, memo := memo,
         is_balanced := true, is_adjusting := false }, ?_, rfl, rfl, rfl, rfl, rfl, rfl⟩, ?_⟩
    · exact List.mem_append_right _ (List.mem_singleton_self _)
    · intro l hl
      apply List.mem_append_right
      exact List.mem_map_of_mem _ hl

theorem create_journal_entry_validates_and_persists_witness :
    (1/100 <
        |(([⟨1, 5, 0, none⟩, ⟨2, 0, 5, none⟩] : List LineInput).map LineInput.debit).sum -
          (([⟨1, 5, 0, none⟩, ⟨2, 0, 5, none⟩] : List LineInput).map LineInput.credit).sum| →
      (create_journal_entry ⟨[], [], [], [], [], [], [], 1⟩ none ⟨2, 1, 1⟩ "r" "d"
          [⟨1, 5, 0, none⟩, ⟨2, 0, 5, none⟩] none).1 = ⟨[], [], [], [], [], [], [], 1⟩ ∧
      ∃ msg, (create_journal_entry ⟨[], [], [], [], [], [], [], 1⟩ none ⟨2, 1, 1⟩ "r" "d"
          [⟨1, 5, 0, none⟩, ⟨2, 0, 5, none⟩] none).2 = Except.error msg) ∧
    (|(([⟨1, 5, 0, none⟩, ⟨2, 0, 5, none⟩] : List LineInput).map LineInput.debit).sum -
        (([⟨1, 5, 0, none⟩, ⟨2, 0, 5, none⟩] : List LineInput).map LineInput.credit).sum| ≤
        1/100 →
      ∃ jeid,
        (create_journal_entry ⟨[], [], [], [], [], [], [], 1⟩ none ⟨2, 1, 1⟩ "r" "d"
          [⟨1, 5, 0, none⟩, ⟨2, 0, 5, none⟩] none).2 = Except.ok jeid ∧
        (∃ je ∈ (create_journal_entry ⟨[], [], [], [], [], [], [], 1⟩ none ⟨2, 1, 1⟩ "r" "d"
            [⟨1, 5, 0, none⟩, ⟨2, 0, 5, none⟩] none).1.journal_entries,
          je.id = jeid ∧ je.ledger_entry_id = none ∧ je.entry_date = ⟨2, 1, 1⟩ ∧
            je.reference = "r" ∧ je.description = "d" ∧ je.memo = none) ∧
        (∀ l ∈ ([⟨1, 5, 0, none⟩, ⟨2, 0, 5, none⟩] : List LineInput),
          ({ journal_entry_id := jeid, account_id := l.account_id, debit := l.debit,
             credit := l.credit, description := l.description } : JournalEntryLineRec) ∈
            (create_journal_entry ⟨[], [], [], [], [], [], [], 1⟩ none ⟨2, 1, 1⟩ "r" "d"
              [⟨1, 5, 0, none⟩, ⟨2, 0, 5, none⟩] none).1.journal_entry_lines)) :=
  create_journal_entry_validates_and_persists ⟨[], [], [], [], [], [], [], 1⟩ none ⟨2, 1, 1⟩
    "r" "d" [⟨1, 5, 0, none⟩, ⟨2, 0, 5, none⟩] none

/-! ## accounting_service.auto_generate_journal_entry -/

/-- Python `x or y` for strings: `None` and the empty string fall through. -/
def py_or_str (x : Option String) (dflt : String) : String :=
  match x with
  | some s => if s = "" then dflt else s
  | none => dflt

/-- Python `ledger_entry.total or ledger_entry.amount or 0`: `None` and 0 fall
through. -/
def total_or_amount_or_zero (total amount : Option ℚ) : ℚ :=
  match total with
  | some t => if t = 0 then (match amount with | some a => a | none => 0) else t
  | none => match amount with | some a => a | none => 0

/-- auto_generate_journal_entry: category and payment method are mapped to
account codes; missing accounts trigger one re-initialization of the chart;
a non-positive amount yields no journal entry; otherwise a two-line entry
(debit expense, credit payment account) is persisted. -/
def auto_generate_journal_entry (db : DB) (ledger_entry : LedgerEntryRec)
    (category : Option String) : DB × Option Nat :=
  let expense_account_code := category_expense_code category
  let payment_method := ((ledger_entry.payment_method.getD "").toLower).trim
  let payment_account_code := (PAYMENT_METHOD_TO_ACCOUNT.lookup payment_method).getD "1100"
  let db1 :=
    if (find_account_by_code db expense_account_code) = none ∨
        (find_account_by_code db payment_account_code) = none then
      initialize_chart_of_accounts db
    else db
  match find_account_by_code db1 expense_account_code,
        find_account_by_code db1 payment_account_code with
  | some expense_account, some payment_account =>
    let amount := total_or_amount_or_zero ledger_entry.total ledger_entry.amount
    if amount ≤ 0 then (db1, none)
    else
      let je : JournalEntryRec :=
        { id := db1.next_id, ledger_entry_id := some ledger_entry.id,
          entry_date := ledger_entry.entry_date, reference := ledger_entry.record_id,
          description := py_or_str ledger_entry.vendor "Unknown" ++ " - " ++
            py_or_str category "Expense",
          memo := none, is_balanced := true, is_adjusting := false }
      ({ db1 with
          journal_entries := db1.journal_entries ++ [je],
          journal_entry_lines := db1.journal_entry_lines ++
            [{ journal_entry_id := je.id, account_id := expense_account.id, debit := amount,
               credit := 0,
               description := some (py_or_str category "Expense" ++ " - " ++
                 py_or_str ledger_entry.vendor "Unknown") },
             { journal_entry_id := je.id, account_id := payment_account.id, debit := 0,
               credit := amount,
               description := some ("Payment for " ++
                 py_or_str ledger_entry.vendor "transaction") }],
          next_id := db1.next_id + 1 }, some je.id)
  | _, _ => (db1, none)

/-! ## accrual_engine_service -/

def PREPAID_EXPENSE_ACCOUNT : String := "1400"

def DEFERRED_REVENUE_ACCOUNT : String := "2400"

def DEFAULT_EXPENSE_ACCOUNT : String := "5990"

def DEFAULT_REVENUE_ACCOUNT : String := "4100"

/-- Modelled from the spec: `get_or_create_account` is imported by the accrual
engine from the accounting service but its definition is not among the
available sources; per the spec's account-resolution rules (default accounts
looked up by code, created when the chart lacks them) it returns the account
with the given code, creating it as an active account with the given name and
type when absent. -/
def get_or_create_account (db : DB) (user_id : Nat) (code name account_type : String) :
    DB × AccountRec :=
  match find_account_by_code db code with
  | some a => (db, a)
  | none =>
    let a : AccountRec := { id := db.next_id, code := code, name := name,
                            account_type := account_type, is_active := true }
    ({ db with accounts := db.accounts ++ [a], next_id := db.next_id + 1 }, a)

/-- The entry mutation performed by a successful non-dry-run posting:
status POSTED, posted_at set, journal_entry_id linked. -/
def posted_entry_update (entry : AmortizationEntryRec) (now : Nat) (jeid : Nat) :
    AmortizationEntryRec :=
  { entry with status := "POSTED", posted_at := some now, journal_entry_id := some jeid }

/-- The claim mutation performed by a successful non-dry-run posting: the
amount moves from remaining to amortized, and the claim completes when the
remainder is within 0.01 of zero. -/
def posted_claim_update (claim : ClaimRightRec) (amount : ℚ) : ClaimRightRec :=
  let base := { claim with
    amortized_amount := claim.amortized_amount + amount,
    remaining_amount := claim.remaining_amount - amount }
  if |base.remaining_amount| < 1/100 then { base with status := "completed" } else base

/-- Expense-account code resolution of _process_asset_claim_accrual: the
originating ledger entry's category when present, else the general-expense
default. -/
def asset_claim_expense_code (db : DB) (claim : ClaimRightRec) : String :=
  match claim.ledger_entry_id with
  | none => DEFAULT_EXPENSE_ACCOUNT
  | some lid =>
    match db.ledger_entries.find? (fun le => le.id == lid) with
    | some le =>
      match le.category with
      | some c => (CATEGORY_TO_EXPENSE_ACCOUNT.lookup c).getD DEFAULT_EXPENSE_ACCOUNT
      | none => DEFAULT_EXPENSE_ACCOUNT
    | none => DEFAULT_EXPENSE_ACCOUNT

/-- The two journal lines _process_asset_claim_accrual constructs and adds to
its private session: a debit of entry.amount on the expense account and a
credit of entry.amount on the prepaid account. -/
def asset_accrual_staged_lines (jeid eid pid : Nat) (entry : AmortizationEntryRec)
    (claim : ClaimRightRec) : List JournalEntryLineRec :=
  [{ journal_entry_id := jeid, account_id := eid, debit := entry.amount, credit := 0,
     description := some ("Expense recognition for " ++ claim.description) },
   { journal_entry_id := jeid, account_id := pid, debit := 0, credit := entry.amount,
     description := some ("Prepaid expense reduction for " ++ claim.description) }]

/-- _process_asset_claim_accrual: resolves the prepaid and expense accounts,
then constructs the Dr expense / Cr prepaid journal entry inside a PRIVATE
session (SessionLocal() at accrual_engine_service.py:171).  That session only
flushes and is closed in the finally block without commit; with
sessionmaker(autocommit=False) (sql.py:270) the staged journal entry and its
two lines are rolled back and never reach the store — only the flushed id
allocation survives.  The non-dry-run branch still marks the amortization
entry POSTED with journal_entry_id pointing at the rolled-back row and moves
the amount from remaining to amortized on the claim, because entry and claim
are attached to the caller's outer session, which commits. -/
def process_asset_claim_accrual (db : DB) (entry : AmortizationEntryRec)
    (claim : ClaimRightRec) (user_id : Nat) (dry_run : Bool) (now : Nat) : DB × Nat :=
  let r1 := get_or_create_account db user_id PREPAID_EXPENSE_ACCOUNT "Prepaid Expenses" "asset"
  let prepaid_account := r1.2
  let expense_account_code := asset_claim_expense_code r1.1 claim
  let r2 := get_or_create_account r1.1 user_id expense_account_code "Expense" "expense"
  let db2 := r2.1
  let expense_account := r2.2
  let je : JournalEntryRec :=
    { id := db2.next_id, ledger_entry_id := claim.ledger_entry_id,
      entry_date := entry.period_start,
      reference := "AMORT-" ++ toString claim.id ++ "-" ++ toString entry.period_number,
      description := "Amortization: " ++ claim.description ++ " (Period " ++
        toString entry.period_number ++ ")",
      memo := some ("Claim Right " ++ toString claim.id ++ " - Asset Claim Amortization"),
      is_balanced := true, is_adjusting := true }
  let staged := asset_accrual_staged_lines je.id expense_account.id prepaid_account.id
    entry claim
  let db3 := { db2 with next_id := db2.next_id + 1 }
  if dry_run then (db3, je.id)
  else
    ({ db3 with
        amortization_entries := db3.amortization_entries.map fun x =>
          if x.id = entry.id then posted_entry_update entry now je.id else x,
        claim_rights := db3.claim_rights.map fun x =>
          if x.id = claim.id then posted_claim_update claim entry.amount else x }, je.id)

/-- Revenue-account code resolution of _process_liability_claim_accrual:
service revenue when an originating ledger entry exists, else the default. -/
def liability_claim_revenue_code (db : DB) (claim : ClaimRightRec) : String :=
  match claim.ledger_entry_id with
  | none => DEFAULT_REVENUE_ACCOUNT
  | some lid =>
    match db.ledger_entries.find? (fun le => le.id == lid) with
    | some _ => "4200"
    | none => DEFAULT_REVENUE_ACCOUNT

/-- The two journal lines _process_liability_claim_accrual constructs and adds
to its private session: a debit of entry.amount on the deferred-revenue
account and a credit of entry.amount on the revenue account. -/
def liability_accrual_staged_lines (jeid did rid : Nat) (entry : AmortizationEntryRec)
    (claim : ClaimRightRec) : List JournalEntryLineRec :=
  [{ journal_entry_id := jeid, account_id := did, debit := entry.amount, credit := 0,
     description := some ("Deferred revenue reduction for " ++ claim.description) },
   { journal_entry_id := jeid, account_id := rid, debit := 0, credit := entry.amount,
     description := some ("Revenue recognition for " ++ claim.description) }]

/-- _process_liability_claim_accrual: Dr deferred revenue / Cr revenue staged
in a private session (accrual_engine_service.py:266) that is closed without
commit, so the journal entry and its lines are rolled back exactly as in the
asset case; only the outer-session entry/claim mutations survive. -/
def process_liability_claim_accrual (db : DB) (entry : AmortizationEntryRec)
    (claim : ClaimRightRec) (user_id : Nat) (dry_run : Bool) (now : Nat) : DB × Nat :=
  let r1 := get_or_create_account db user_id DEFERRED_REVENUE_ACCOUNT "Deferred Revenue"
    "liability"
  let deferred_account := r1.2
  let revenue_account_code := liability_claim_revenue_code r1.1 claim
  let r2 := get_or_create_account r1.1 user_id revenue_account_code "Revenue" "revenue"
  let db2 := r2.1
  let revenue_account := r2.2
  let je : JournalEntryRec :=
    { id := db2.next_id, ledger_entry_id := claim.ledger_entry_id,
      entry_date := entry.period_start,
      reference := "AMORT-" ++ toString claim.id ++ "-" ++ toString entry.period_number,
      description := "Amortization: " ++ claim.description ++ " (Period " ++
        toString entry.period_number ++ ")",
      memo := some ("Claim Right " ++ toString claim.id ++ " - Liability Claim Amortization"),
      is_balanced := true, is_adjusting := true }
  let staged := liability_accrual_staged_lines je.id deferred_account.id revenue_account.id
    entry claim
  let db3 := { db2 with next_id := db2.next_id + 1 }
  if dry_run then (db3, je.id)
  else
    ({ db3 with
        amortization_entries := db3.amortization_entries.map fun x =>
          if x.id = entry.id then posted_entry_update entry now je.id else x,
        claim_rights := db3.claim_rights.map fun x =>
          if x.id = claim.id then posted_claim_update claim entry.amount else x }, je.id)

/-- process_single_accrual: dispatch on the claim type. -/
def process_single_accrual (db : DB) (entry : AmortizationEntryRec) (claim : ClaimRightRec)
    (user_id : Nat) (dry_run : Bool) (now : Nat) : DB × Except String Nat :=
  if claim.claim_type = "ASSET_CLAIM" then
    let r := process_asset_claim_accrual db entry claim user_id dry_run now
    (r.1, Except.ok r.2)
  else if claim.claim_type = "LIABILITY_CLAIM" then
    let r := process_liability_claim_accrual db entry claim user_id dry_run now
    (r.1, Except.ok r.2)
  else (db, Except.error ("Unknown claim type: " ++ claim.claim_type))

/-! ## claim_right_service: creation, schedule persistence, cancellation -/

/-- generate_amortization_schedule at the store level: an existing schedule is
returned unchanged (idempotence warning branch); otherwise the schedule row
and its PENDING period entries are inserted. -/
def generate_amortization_schedule (db : DB) (claim_right_id : Nat) :
    DB × Except String AmortizationScheduleRec :=
  match db.claim_rights.find? (fun c => c.id == claim_right_id) with
  | none => (db, Except.error ("Claim right " ++ toString claim_right_id ++ " not found"))
  | some claim =>
    match db.amortization_schedules.find? (fun s => s.claim_right_id == claim_right_id) with
    | some sched => (db, Except.ok sched)
    | none =>
      if determine_amortization_periods claim.start_date claim.end_date claim.frequency = 0 then
        (db, Except.error "Invalid period: start_date must be before end_date")
      else
        let total_periods :=
          determine_amortization_periods claim.start_date claim.end_date claim.frequency
        let amount_per_period := claim.total_amount / (total_periods : ℚ)
        let sched : AmortizationScheduleRec :=
          { id := db.next_id, claim_right_id := claim_right_id, total_periods := total_periods,
            amount_per_period := amount_per_period, is_generated := true }
        let gens := scheduleLoop claim.start_date claim.end_date claim.frequency
          claim.total_amount amount_per_period total_periods claim.start_date 1 total_periods
        ({ db with
            amortization_schedules := db.amortization_schedules ++ [sched],
            amortization_entries := db.amortization_entries ++
              ((List.range gens.length).zip gens).map (fun p =>
                { id := db.next_id + 1 + p.1, claim_right_id := claim_right_id,
                  schedule_id := sched.id, period_number := p.2.period_number,
                  period_start := p.2.period_start, period_end := p.2.period_end,
                  amount := p.2.amount, status := p.2.status, posted_at := none,
                  journal_entry_id := none }),
            next_id := db.next_id + 1 + gens.length }, Except.ok sched)

/-- create_claim_right: requires a measurable (positive) amount, persists the
claim with remaining = total and amortized = 0 and status active, then
triggers schedule generation; a generation error propagates but the claim row
is already committed. -/
def create_claim_right (db : DB) (user_id : Nat) (ledger_entry_id : Option Nat)
    (structured_description : Option String) (claim_type : String) (total_amount : ℚ)
    (start_date end_date : Date) (frequency : String) (description : Option String) :
    DB × Except String ClaimRightRec :=
  if ¬ (0 < total_amount) then
    (db, Except.error "Claim right amount must be measurable (greater than 0)")
  else
    let claim : ClaimRightRec :=
      { id := db.next_id, user_id := user_id, ledger_entry_id := ledger_entry_id,
        claim_type := claim_type,
        description := py_or_str description
          (structured_description.getD "Long-term transaction"),
        total_amount := total_amount, remaining_amount := total_amount, amortized_amount := 0,
        start_date := start_date, end_date := end_date, frequency := frequency,
        status := "active", cancellation_date := none, cancellation_reason := none,
        is_probable := true, is_measurable := true }
    let db1 := { db with
      claim_rights := db.claim_rights ++ [claim], next_id := db.next_id + 1 }
    let g := generate_amortization_schedule db1 claim.id
    (g.1, match g.2 with
      | Except.ok _ => Except.ok claim
      | Except.error msg => Except.error msg)

/-- cancel_claim_right: a no-op on an already-cancelled claim; otherwise sets
status cancelled, records date and reason, and marks the claim's PENDING
amortization entries SKIPPED.  (Only the `cancelled` status short-circuits.) -/
def cancel_claim_right (db : DB) (claim_right_id user_id : Nat) (reason : Option String)
    (now : Nat) : DB × Except String ClaimRightRec :=
  match db.claim_rights.find? (fun c => c.id == claim_right_id && c.user_id == user_id) with
  | none => (db, Except.error ("Claim right " ++ toString claim_right_id ++ " not found"))
  | some claim =>
    if claim.status = "cancelled" then (db, Except.ok claim)
    else
      let updated := { claim with
        status := "cancelled", cancellation_date := some now,
        cancellation_reason := reason }
      ({ db with
          claim_rights := db.claim_rights.map fun c =>
            if c.id = claim.id then updated else c,
          amortization_entries := db.amortization_entries.map fun e =>
            if e.claim_right_id = claim_right_id ∧ e.status = "PENDING" then
              { e with status := "SKIPPED" }
            else e }, Except.ok updated)

/-! ### State-shape helpers -/

theorem get_or_create_account_state (db : DB) (uid : Nat) (code name ty : String) :
    (get_or_create_account db uid code name ty).1.journal_entries = db.journal_entries ∧
    (get_or_create_account db uid code name ty).1.journal_entry_lines
        = db.journal_entry_lines ∧
    (get_or_create_account db uid code name ty).1.claim_rights = db.claim_rights ∧
    (get_or_create_account db uid code name ty).1.amortization_entries
        = db.amortization_entries ∧
    (get_or_create_account db uid code name ty).1.amortization_schedules
        = db.amortization_schedules ∧
    (get_or_create_account db uid code name ty).1.ledger_entries = db.ledger_entries := by
  unfold get_or_create_account
  cases find_account_by_code db code <;> exact ⟨rfl, rfl, rfl, rfl, rfl, rfl⟩

theorem get_or_create_account_spec (db : DB) (uid : Nat) (code name ty : String) :
    (get_or_create_account db uid code name ty).2.code = code ∧
    (get_or_create_account db uid code name ty).2 ∈
      (get_or_create_account db uid code name ty).1.accounts ∧
    (∀ a ∈ db.accounts, a ∈ (get_or_create_account db uid code name ty).1.accounts) ∧
    (find_account_by_code db code = none →
      (get_or_create_account db uid code name ty).2.account_type = ty ∧
      (get_or_create_account db uid code name ty).2.name = name) := by
  unfold get_or_create_account
  cases hfind : find_account_by_code db code with
  | none =>
    refine ⟨rfl, ?_, ?_, fun _ => ⟨rfl, rfl⟩⟩
    · exact List.mem_append_right _ (List.mem_singleton_self _)
    · intro a ha; exact List.mem_append_left _ ha
  | some a =>
    refine ⟨?_, ?_, fun x hx => hx, fun hc => by simp_all⟩
    · have h := List.find?_some (by simpa [find_account_by_code] using hfind)
      exact eq_of_beq h
    · exact List.mem_of_find?_eq_some (by simpa [find_account_by_code] using hfind)

theorem get_or_create_account_next_id (db : DB) (uid : Nat) (code name ty : String) :
    db.next_id ≤ (get_or_create_account db uid code name ty).1.next_id := by
  unfold get_or_create_account
  cases find_account_by_code db code with
  | none => exact Nat.le_succ _
  | some a => exact Nat.le_refl _

theorem asset_claim_expense_code_congr {db1 db2 : DB}
    (h : db1.ledger_entries = db2.ledger_entries) (claim : ClaimRightRec) :
    asset_claim_expense_code db1 claim = asset_claim_expense_code db2 claim := by
  unfold asset_claim_expense_code
  rw [h]

theorem posted_claim_update_fields (claim : ClaimRightRec) (a : ℚ) :
    (posted_claim_update claim a).amortized_amount = claim.amortized_amount + a ∧
    (posted_claim_update claim a).remaining_amount = claim.remaining_amount - a ∧
    (posted_claim_update claim a).total_amount = claim.total_amount ∧
    (|claim.remaining_amount - a| < 1/100 →
      (posted_claim_update claim a).status = "completed") ∧
    (¬ |claim.remaining_amount - a| < 1/100 →
      (posted_claim_update claim a).status = claim.status) := by
  simp only [posted_claim_update]
  split_ifs with h
  · exact ⟨rfl, rfl, rfl, fun _ => rfl, fun hc => absurd h hc⟩
  · exact ⟨rfl, rfl, rfl, fun hc => absurd hc h, fun _ => rfl⟩

theorem posted_entry_update_fields (entry : AmortizationEntryRec) (now jeid : Nat) :
    (posted_entry_update entry now jeid).status = "POSTED" ∧
    (posted_entry_update entry now jeid).posted_at = some now ∧
    (posted_entry_update entry now jeid).journal_entry_id = some jeid ∧
    (posted_entry_update entry now jeid).amount = entry.amount :=
  ⟨rfl, rfl, rfl, rfl⟩

theorem process_asset_claim_accrual_state (db : DB) (entry : AmortizationEntryRec)
    (claim : ClaimRightRec) (uid now : Nat) :
    (process_asset_claim_accrual db entry claim uid false now).1.claim_rights =
      db.claim_rights.map (fun x =>
        if x.id = claim.id then posted_claim_update claim entry.amount else x) ∧
    (process_asset_claim_accrual db entry claim uid false now).1.amortization_entries =
      db.amortization_entries.map (fun x =>
        if x.id = entry.id then
          posted_entry_update entry now
            (process_asset_claim_accrual db entry claim uid false now).2
        else x) := by
  obtain ⟨-, -, h1, h2, -, -⟩ := get_or_create_account_state db uid PREPAID_EXPENSE_ACCOUNT
    "Prepaid Expenses" "asset"
  obtain ⟨-, -, g1, g2, -, -⟩ := get_or_create_account_state
    (get_or_create_account db uid PREPAID_EXPENSE_ACCOUNT "Prepaid Expenses" "asset").1 uid
    (asset_claim_expense_code
      (get_or_create_account db uid PREPAID_EXPENSE_ACCOUNT "Prepaid Expenses" "asset").1
      claim)
    "Expense" "expense"
  simp only [process_asset_claim_accrual, Bool.false_eq_true, if_false]
  rw [g1, g2, h1, h2]
  exact ⟨rfl, rfl⟩

theorem process_liability_claim_accrual_state (db : DB) (entry : AmortizationEntryRec)
    (claim : ClaimRightRec) (uid now : Nat) :
    (process_liability_claim_accrual db entry claim uid false now).1.claim_rights =
      db.claim_rights.map (fun x =>
        if x.id = claim.id then posted_claim_update claim entry.amount else x) ∧
    (process_liability_claim_accrual db entry claim uid false now).1.amortization_entries =
      db.amortization_entries.map (fun x =>
        if x.id = entry.id then
          posted_entry_update entry now
            (process_liability_claim_accrual db entry claim uid false now).2
        else x) := by
  obtain ⟨-, -, h1, h2, -, -⟩ := get_or_create_account_state db uid DEFERRED_REVENUE_ACCOUNT
    "Deferred Revenue" "liability"
  obtain ⟨-, -, g1, g2, -, -⟩ := get_or_create_account_state
    (get_or_create_account db uid DEFERRED_REVENUE_ACCOUNT "Deferred Revenue" "liability").1
    uid
    (liability_claim_revenue_code
      (get_or_create_account db uid DEFERRED_REVENUE_ACCOUNT "Deferred Revenue" "liability").1
      claim)
    "Revenue" "revenue"
  simp only [process_liability_claim_accrual, Bool.false_eq_true, if_false]
  rw [g1, g2, h1, h2]
  exact ⟨rfl, rfl⟩

/-- The private session's journal writes are rolled back: processing changes
neither journal table of the store. -/
theorem process_asset_claim_accrual_frame (db : DB) (entry : AmortizationEntryRec)
    (claim : ClaimRightRec) (uid now : Nat) (dry_run : Bool) :
    (process_asset_claim_accrual db entry claim uid dry_run now).1.journal_entries
        = db.journal_entries ∧
    (process_asset_claim_accrual db entry claim uid dry_run now).1.journal_entry_lines
        = db.journal_entry_lines := by
  obtain ⟨h1, h2, -, -, -, -⟩ := get_or_create_account_state db uid PREPAID_EXPENSE_ACCOUNT
    "Prepaid Expenses" "asset"
  obtain ⟨g1, g2, -, -, -, -⟩ := get_or_create_account_state
    (get_or_create_account db uid PREPAID_EXPENSE_ACCOUNT "Prepaid Expenses" "asset").1 uid
    (asset_claim_expense_code
      (get_or_create_account db uid PREPAID_EXPENSE_ACCOUNT "Prepaid Expenses" "asset").1
      claim)
    "Expense" "expense"
  cases dry_run
  · simp only [process_asset_claim_accrual, Bool.false_eq_true, if_false]
    rw [g1, g2, h1, h2]
    exact ⟨rfl, rfl⟩
  · simp only [process_asset_claim_accrual]
    rw [if_pos trivial]
    dsimp only
    rw [g1, g2, h1, h2]
    exact ⟨rfl, rfl⟩

theorem process_liability_claim_accrual_frame (db : DB) (entry : AmortizationEntryRec)
    (claim : ClaimRightRec) (uid now : Nat) (dry_run : Bool) :
    (process_liability_claim_accrual db entry claim uid dry_run now).1.journal_entries
        = db.journal_entries ∧
    (process_liability_claim_accrual db entry claim uid dry_run now).1.journal_entry_lines
        = db.journal_entry_lines := by
  obtain ⟨h1, h2, -, -, -, -⟩ := get_or_create_account_state db uid DEFERRED_REVENUE_ACCOUNT
    "Deferred Revenue" "liability"
  obtain ⟨g1, g2, -, -, -, -⟩ := get_or_create_account_state
    (get_or_create_account db uid DEFERRED_REVENUE_ACCOUNT "Deferred Revenue" "liability").1
    uid
    (liability_claim_revenue_code
      (get_or_create_account db uid DEFERRED_REVENUE_ACCOUNT "Deferred Revenue"
        "liability").1 claim)
    "Revenue" "revenue"
  cases dry_run
  · simp only [process_liability_claim_accrual, Bool.false_eq_true, if_false]
    rw [g1, g2, h1, h2]
    exact ⟨rfl, rfl⟩
  · simp only [process_liability_claim_accrual]
    rw [if_pos trivial]
    dsimp only
    rw [g1, g2, h1, h2]
    exact ⟨rfl, rfl⟩

/-- The id handed back is the one the private session's flush allocated: it is
at least the store's next free id, so no persisted row can carry it. -/
theorem process_asset_claim_accrual_jeid_ge (db : DB) (entry : AmortizationEntryRec)
    (claim : ClaimRightRec) (uid now : Nat) :
    db.next_id ≤ (process_asset_claim_accrual db entry claim uid false now).2 := by
  have h1 := get_or_create_account_next_id db uid PREPAID_EXPENSE_ACCOUNT
    "Prepaid Expenses" "asset"
  have h2 := get_or_create_account_next_id
    (get_or_create_account db uid PREPAID_EXPENSE_ACCOUNT "Prepaid Expenses" "asset").1 uid
    (asset_claim_expense_code
      (get_or_create_account db uid PREPAID_EXPENSE_ACCOUNT "Prepaid Expenses" "asset").1
      claim)
    "Expense" "expense"
  have hj : (process_asset_claim_accrual db entry claim uid false now).2 =
      (get_or_create_account
        (get_or_create_account db uid PREPAID_EXPENSE_ACCOUNT "Prepaid Expenses" "asset").1
        uid
        (asset_claim_expense_code
          (get_or_create_account db uid PREPAID_EXPENSE_ACCOUNT "Prepaid Expenses"
            "asset").1 claim)
        "Expense" "expense").1.next_id := rfl
  rw [hj]
  exact le_trans h1 h2

/-! ## Claim C5 -/

theorem generate_schedule_preserves_claim_rights (db : DB) (cid : Nat) :
    (generate_amortization_schedule db cid).1.claim_rights = db.claim_rights := by
  unfold generate_amortization_schedule
  cases hc : db.claim_rights.find? (fun c => c.id == cid) with
  | none => rfl
  | some claim =>
    cases hs : db.amortization_schedules.find? (fun s => s.claim_right_id == cid) with
    | some sched => rfl
    | none =>
      dsimp only
      split
      · rfl
      · rfl

/-- C5: the equation remaining + amortized = total holds (within the 0.01
tolerance; in fact exactly) immediately after create_claim_right, which sets
remaining = total and amortized = 0, and it is preserved by every non-dry-run
accrual posting, which moves the posted amount from remaining to amortized. -/
theorem claim_amounts_invariant :
    (∀ (db : DB) (user_id : Nat) (lid : Option Nat) (sdesc : Option String)
        (claim_type : String) (total : ℚ) (s e : Date) (frequency : String)
        (desc : Option String) (db' : DB) (claim : ClaimRightRec),
      create_claim_right db user_id lid sdesc claim_type total s e frequency desc
          = (db', Except.ok claim) →
      |claim.remaining_amount + claim.amortized_amount - claim.total_amount| < 1/100 ∧
      claim ∈ db'.claim_rights) ∧
    (∀ (db : DB) (entry : AmortizationEntryRec) (claim : ClaimRightRec) (user_id now : Nat),
      |claim.remaining_amount + claim.amortized_amount - claim.total_amount| < 1/100 →
      (∀ c' ∈ (process_asset_claim_accrual db entry claim user_id false now).1.claim_rights,
        c' ∈ db.claim_rights ∨
          |c'.remaining_amount + c'.amortized_amount - c'.total_amount| < 1/100) ∧
      (∀ c' ∈ (process_liability_claim_accrual db entry claim user_id false
          now).1.claim_rights,
        c' ∈ db.claim_rights ∨
          |c'.remaining_amount + c'.amortized_amount - c'.total_amount| < 1/100)) := by
  constructor
  · intro db uid lid sdesc ct total s e freq desc db' claim h
    simp only [create_claim_right] at h
    split_ifs at h with hpos
    · -- measurable amount: the claim row is persisted with remaining = total
      cases hg : (generate_amortization_schedule
          { db with
            claim_rights := db.claim_rights ++
              [{ id := db.next_id, user_id := uid, ledger_entry_id := lid, claim_type := ct,
                 description := py_or_str desc (sdesc.getD "Long-term transaction"),
                 total_amount := total, remaining_amount := total, amortized_amount := 0,
                 start_date := s, end_date := e, frequency := freq, status := "active",
                 cancellation_date := none, cancellation_reason := none,
                 is_probable := true, is_measurable := true }],
            next_id := db.next_id + 1 } db.next_id).2 with
      | error msg =>
        rw [hg] at h
        simp at h
      | ok sched =>
        rw [hg] at h
        simp only [Prod.mk.injEq, Except.ok.injEq] at h
        obtain ⟨hdb, hclaim⟩ := h
        subst hdb
        subst hclaim
        constructor
        · norm_num
        · rw [generate_schedule_preserves_claim_rights]
          exact List.mem_append_right _ (List.mem_singleton_self _)
    · -- non-measurable amount: the call errored, contradicting the ok result
      simp at h
  · intro db entry claim uid now hinv
    constructor
    · intro c' hc'
      rw [(process_asset_claim_accrual_state db entry claim uid now).1] at hc'
      rcases List.mem_map.mp hc' with ⟨x, hx, hfx⟩
      by_cases hid : x.id = claim.id
      · right
        rw [if_pos hid] at hfx
        subst hfx
        obtain ⟨ha, hr, ht, -, -⟩ := posted_claim_update_fields claim entry.amount
        rw [ha, hr, ht]
        have heq : claim.remaining_amount - entry.amount +
            (claim.amortized_amount + entry.amount) - claim.total_amount =
            claim.remaining_amount + claim.amortized_amount - claim.total_amount := by ring
        rw [heq]
        exact hinv
      · left
        rw [if_neg hid] at hfx
        subst hfx
        exact hx
    · intro c' hc'
      rw [(process_liability_claim_accrual_state db entry claim uid now).1] at hc'
      rcases List.mem_map.mp hc' with ⟨x, hx, hfx⟩
      by_cases hid : x.id = claim.id
      · right
        rw [if_pos hid] at hfx
        subst hfx
        obtain ⟨ha, hr, ht, -, -⟩ := posted_claim_update_fields claim entry.amount
        rw [ha, hr, ht]
        have heq : claim.remaining_amount - entry.amount +
            (claim.amortized_amount + entry.amount) - claim.total_amount =
            claim.remaining_amount + claim.amortized_amount - claim.total_amount := by ring
        rw [heq]
        exact hinv
      · left
        rw [if_neg hid] at hfx
        subst hfx
        exact hx

/-! ## Claim C6 -/

/-- C6 (amended): cancelling an already-cancelled claim is a no-op; any other
cancellation (also of a completed claim) sets the status to cancelled; and a
non-dry-run accrual posting either leaves a claim's status unchanged or sets
it to completed.  Together: the only transitions are active to completed
(posting), active to cancelled, and completed to cancelled (cancellation),
and nothing ever leaves the cancelled status. -/
theorem claim_status_transitions :
    (∀ (db : DB) (cid uid : Nat) (reason : Option String) (now : Nat)
        (claim : ClaimRightRec),
      db.claim_rights.find? (fun c => c.id == cid && c.user_id == uid) = some claim →
      claim.status = "cancelled" →
      cancel_claim_right db cid uid reason now = (db, Except.ok claim)) ∧
    (∀ (db : DB) (cid uid : Nat) (reason : Option String) (now : Nat),
      ∀ c' ∈ (cancel_claim_right db cid uid reason now).1.claim_rights,
        c' ∈ db.claim_rights ∨ c'.status = "cancelled") ∧
    (∀ (db : DB) (entry : AmortizationEntryRec) (claim : ClaimRightRec) (uid now : Nat),
      ∀ c' ∈ (process_asset_claim_accrual db entry claim uid false now).1.claim_rights,
        c' ∈ db.claim_rights ∨ c'.status = "completed" ∨ c'.status = claim.status) ∧
    (∀ (db : DB) (entry : AmortizationEntryRec) (claim : ClaimRightRec) (uid now : Nat),
      ∀ c' ∈ (process_liability_claim_accrual db entry claim uid false now).1.claim_rights,
        c' ∈ db.claim_rights ∨ c'.status = "completed" ∨ c'.status = claim.status) := by
  have hpost : ∀ (claim : ClaimRightRec) (a : ℚ),
      (posted_claim_update claim a).status = "completed" ∨
      (posted_claim_update claim a).status = claim.status := by
    intro claim a
    obtain ⟨-, -, -, h1, h2⟩ := posted_claim_update_fields claim a
    by_cases hc : |claim.remaining_amount - a| < 1/100
    · exact Or.inl (h1 hc)
    · exact Or.inr (h2 hc)
  refine ⟨?_, ?_, ?_, ?_⟩
  · intro db cid uid reason now claim hfind hstat
    unfold cancel_claim_right
    rw [hfind]
    dsimp only
    rw [if_pos hstat]
  · intro db cid uid reason now c' hc'
    unfold cancel_claim_right at hc'
    cases hfind : db.claim_rights.find? (fun c => c.id == cid && c.user_id == uid) with
    | none =>
      rw [hfind] at hc'
      exact Or.inl hc'
    | some claim =>
      rw [hfind] at hc'
      dsimp only at hc'
      by_cases hstat : claim.status = "cancelled"
      · rw [if_pos hstat] at hc'
        exact Or.inl hc'
      · rw [if_neg hstat] at hc'
        rcases List.mem_map.mp hc' with ⟨x, hx, hfx⟩
        by_cases hid : x.id = claim.id
        · rw [if_pos hid] at hfx
          subst hfx
          exact Or.inr rfl
        · rw [if_neg hid] at hfx
          subst hfx
          exact Or.inl hx
  · intro db entry claim uid now c' hc'
    rw [(process_asset_claim_accrual_state db entry claim uid now).1] at hc'
    rcases List.mem_map.mp hc' with ⟨x, hx, hfx⟩
    by_cases hid : x.id = claim.id
    · rw [if_pos hid] at hfx
      subst hfx
      exact Or.inr (hpost claim entry.amount)
    · rw [if_neg hid] at hfx
      subst hfx
      exact Or.inl hx
  · intro db entry claim uid now c' hc'
    rw [(process_liability_claim_accrual_state db entry claim uid now).1] at hc'
    rcases List.mem_map.mp hc' with ⟨x, hx, hfx⟩
    by_cases hid : x.id = claim.id
    · rw [if_pos hid] at hfx
      subst hfx
      exact Or.inr (hpost claim entry.amount)
    · rw [if_neg hid] at hfx
      subst hfx
      exact Or.inl hx

/-- A store holding one fully amortized (completed) claim right, the state an
accrual posting leaves behind once the remaining amount reaches zero. -/
def c6dbCompleted : DB :=
  ⟨[], [], [], [],
    [⟨1, 1, none, "ASSET_CLAIM", "d", 100, 0, 100, ⟨2, 1, 1⟩, ⟨2, 2, 1⟩, "monthly",
      "completed", none, none, true, true⟩],
    [], [], 2⟩

/-- Counterexample to C6 as stated: cancel_claim_right short-circuits only for
already-cancelled claims, so cancelling a claim right whose status is already
completed still changes its status to cancelled. -/
theorem completed_claim_can_be_cancelled :
    (∃ c ∈ c6dbCompleted.claim_rights, c.status = "completed") ∧
    (cancel_claim_right c6dbCompleted 1 1 none 0).2.toOption =
      some ⟨1, 1, none, "ASSET_CLAIM", "d", 100, 0, 100, ⟨2, 1, 1⟩, ⟨2, 2, 1⟩,
        "monthly", "cancelled", some 0, none, true, true⟩ ∧
    (∃ c ∈ (cancel_claim_right c6dbCompleted 1 1 none 0).1.claim_rights,
      c.status = "cancelled") ∧
    (∀ c ∈ (cancel_claim_right c6dbCompleted 1 1 none 0).1.claim_rights,
      c.status ≠ "completed") := by
  decide

/-! ## Claim C4 -/

def c4db : DB :=
  ⟨[], [], [], [],
    [⟨1, 1, none, "ASSET_CLAIM", "d", 100, 100, 0, ⟨2, 1, 1⟩, ⟨2, 2, 1⟩, "monthly",
      "active", none, none, true, true⟩],
    [⟨2, 1, 1, 100, true⟩],
    [⟨3, 1, 2, 1, ⟨2, 1, 1⟩, ⟨2, 2, 1⟩, 100, "PENDING", none, none⟩], 4⟩

def c4entry : AmortizationEntryRec :=
  ⟨3, 1, 2, 1, ⟨2, 1, 1⟩, ⟨2, 2, 1⟩, 100, "PENDING", none, none⟩

def c4claim : ClaimRightRec :=
  ⟨1, 1, none, "ASSET_CLAIM", "d", 100, 100, 0, ⟨2, 1, 1⟩, ⟨2, 2, 1⟩, "monthly",
    "active", none, none, true, true⟩

/-- C4: the claim fails against the source.  _process_asset_claim_accrual
stages the Dr expense / Cr prepaid journal entry in a private session
(accrual_engine_service.py:171) that is closed in the finally block without
commit, rolling the inserts back: a non-dry-run posting leaves both journal
tables of the store unchanged, while still marking the amortization entry
POSTED with posted_at set and journal_entry_id referencing the rolled-back
row — an id no persisted journal entry carries. -/
theorem asset_claim_accrual_journal_lost (db : DB) (entry : AmortizationEntryRec)
    (claim : ClaimRightRec) (user_id now : Nat)
    (hentry : entry ∈ db.amortization_entries)
    (hfresh : ∀ je ∈ db.journal_entries, je.id < db.next_id) :
    (process_asset_claim_accrual db entry claim user_id false now).1.journal_entries
        = db.journal_entries ∧
    (process_asset_claim_accrual db entry claim user_id false now).1.journal_entry_lines
        = db.journal_entry_lines ∧
    posted_entry_update entry now
        (process_asset_claim_accrual db entry claim user_id false now).2
      ∈ (process_asset_claim_accrual db entry claim user_id false now).1.amortization_entries ∧
    (posted_entry_update entry now
      (process_asset_claim_accrual db entry claim user_id false now).2).status = "POSTED" ∧
    (posted_entry_update entry now
      (process_asset_claim_accrual db entry claim user_id false now).2).posted_at = some now ∧
    (posted_entry_update entry now
      (process_asset_claim_accrual db entry claim user_id false now).2).journal_entry_id
        = some (process_asset_claim_accrual db entry claim user_id false now).2 ∧
    ∀ je ∈ (process_asset_claim_accrual db entry claim user_id false now).1.journal_entries,
      je.id ≠ (process_asset_claim_accrual db entry claim user_id false now).2 := by
  obtain ⟨hje, hjl⟩ := process_asset_claim_accrual_frame db entry claim user_id now false
  obtain ⟨-, hae⟩ := process_asset_claim_accrual_state db entry claim user_id now
  refine ⟨hje, hjl, ?_, rfl, rfl, rfl, ?_⟩
  · rw [hae]
    have := List.mem_map_of_mem (fun x =>
      if x.id = entry.id then
        posted_entry_update entry now
          (process_asset_claim_accrual db entry claim user_id false now).2
      else x) hentry
    simpa using this
  · intro je hjemem
    rw [hje] at hjemem
    have hlt := hfresh je hjemem
    have hge := process_asset_claim_accrual_jeid_ge db entry claim user_id now
    omega

theorem asset_claim_accrual_journal_lost_witness :
    (process_asset_claim_accrual c4db c4entry c4claim 1 false 0).1.journal_entries
        = c4db.journal_entries ∧
    (process_asset_claim_accrual c4db c4entry c4claim 1 false 0).1.journal_entry_lines
        = c4db.journal_entry_lines ∧
    posted_entry_update c4entry 0
        (process_asset_claim_accrual c4db c4entry c4claim 1 false 0).2
      ∈ (process_asset_claim_accrual c4db c4entry c4claim 1 false 0).1.amortization_entries ∧
    (posted_entry_update c4entry 0
      (process_asset_claim_accrual c4db c4entry c4claim 1 false 0).2).status = "POSTED" ∧
    (posted_entry_update c4entry 0
      (process_asset_claim_accrual c4db c4entry c4claim 1 false 0).2).posted_at = some 0 ∧
    (posted_entry_update c4entry 0
      (process_asset_claim_accrual c4db c4entry c4claim 1 false 0).2).journal_entry_id
        = some (process_asset_claim_accrual c4db c4entry c4claim 1 false 0).2 ∧
    ∀ je ∈ (process_asset_claim_accrual c4db c4entry c4claim 1 false 0).1.journal_entries,
      je.id ≠ (process_asset_claim_accrual c4db c4entry c4claim 1 false 0).2 :=
  asset_claim_accrual_journal_lost c4db c4entry c4claim 1 0 (by decide) (by decide)

/-! ## Claim C7 -/

/-- A line is a debit or a credit, never both and never neither. -/
def exactly_one_side (l : JournalEntryLineRec) : Prop :=
  (l.debit ≠ 0 ∧ l.credit = 0) ∨ (l.debit = 0 ∧ l.credit ≠ 0)

theorem initialize_chart_of_accounts_lines (db : DB) :
    (initialize_chart_of_accounts db).journal_entry_lines = db.journal_entry_lines := by
  unfold initialize_chart_of_accounts
  split
  · rfl
  · rfl

theorem if_init_lines (db : DB) (c : Prop) [Decidable c] :
    (if c then initialize_chart_of_accounts db else db).journal_entry_lines =
      db.journal_entry_lines := by
  split
  · exact initialize_chart_of_accounts_lines db
  · rfl

/-- auto_generate_journal_entry either leaves the persisted lines unchanged
(missing accounts or a non-positive amount) or appends exactly one debit line
and one credit line, both for the same positive amount. -/
theorem auto_generate_journal_entry_lines (db : DB) (le : LedgerEntryRec)
    (category : Option String) :
    (auto_generate_journal_entry db le category).1.journal_entry_lines
        = db.journal_entry_lines ∨
    ∃ jeid eid pid, ∃ a : ℚ, ∃ d1 d2, 0 < a ∧
      (auto_generate_journal_entry db le category).1.journal_entry_lines =
        db.journal_entry_lines ++
          [{ journal_entry_id := jeid, account_id := eid, debit := a, credit := 0,
             description := d1 },
           { journal_entry_id := jeid, account_id := pid, debit := 0, credit := a,
             description := d2 }] := by
  unfold auto_generate_journal_entry
  dsimp only
  split
  · next ea pa hea hpa =>
    split
    · next hle =>
      exact Or.inl (if_init_lines db _)
    · next hpos =>
      apply Or.inr
      generalize hg : (if find_account_by_code db (category_expense_code category) = none ∨
          find_account_by_code db
            ((List.lookup (le.payment_method.getD "").toLower.trim
              PAYMENT_METHOD_TO_ACCOUNT).getD "1100") = none then
          initialize_chart_of_accounts db
        else db) = db1
      have hl : db1.journal_entry_lines = db.journal_entry_lines := by
        rw [← hg]
        exact if_init_lines db _
      exact ⟨db1.next_id, ea.id, pa.id, total_or_amount_or_zero le.total le.amount,
        some (py_or_str category "Expense" ++ " - " ++ py_or_str le.vendor "Unknown"),
        some ("Payment for " ++ py_or_str le.vendor "transaction"),
        lt_of_not_le hpos, by dsimp only; rw [hl]⟩
  · exact Or.inl (if_init_lines db _)

/-- C7 (amended): every line persisted by auto_generate_journal_entry has
exactly one non-zero side, and so does every line of the Dr/Cr pair the
accrual engine constructs for an amortization entry of non-zero amount
(those staged lines are rolled back with the engine's private session rather
than persisted; see C4); create_journal_entry, however, performs no per-line
check (see the counterexample). -/
theorem generated_lines_one_sided :
    (∀ (db : DB) (le : LedgerEntryRec) (category : Option String) (db' : DB) (jeid : Nat),
      auto_generate_journal_entry db le category = (db', some jeid) →
      ∀ l ∈ db'.journal_entry_lines, l ∉ db.journal_entry_lines → exactly_one_side l) ∧
    (∀ (jeid aid bid : Nat) (entry : AmortizationEntryRec) (claim : ClaimRightRec),
      entry.amount ≠ 0 →
      (∀ l ∈ asset_accrual_staged_lines jeid aid bid entry claim, exactly_one_side l) ∧
      (∀ l ∈ liability_accrual_staged_lines jeid aid bid entry claim,
        exactly_one_side l)) := by
  constructor
  · intro db le category db' jeid h l hl hnew
    have hdb' : db' = (auto_generate_journal_entry db le category).1 := by
      rw [h]
    subst hdb'
    rcases auto_generate_journal_entry_lines db le category with hsame | hnewlines
    · rw [hsame] at hl
      exact absurd hl hnew
    · obtain ⟨aj, eid, pid, a, d1, d2, hapos, hlines⟩ := hnewlines
      rw [hlines] at hl
      rcases List.mem_append.mp hl with hold | hmem
      · exact absurd hold hnew
      · rcases List.mem_cons.mp hmem with h1 | h1
        · subst h1
          exact Or.inl ⟨hapos.ne', rfl⟩
        · rcases List.mem_cons.mp h1 with h2 | h2
          · subst h2
            exact Or.inr ⟨rfl, hapos.ne'⟩
          · exact absurd h2 (List.not_mem_nil _)
  · intro jeid aid bid entry claim hamt
    constructor
    · intro l hl
      simp only [asset_accrual_staged_lines] at hl
      rcases List.mem_cons.mp hl with h1 | h1
      · subst h1
        exact Or.inl ⟨hamt, rfl⟩
      · rcases List.mem_cons.mp h1 with h2 | h2
        · subst h2
          exact Or.inr ⟨rfl, hamt⟩
        · exact absurd h2 (List.not_mem_nil _)
    · intro l hl
      simp only [liability_accrual_staged_lines] at hl
      rcases List.mem_cons.mp hl with h1 | h1
      · subst h1
        exact Or.inl ⟨hamt, rfl⟩
      · rcases List.mem_cons.mp h1 with h2 | h2
        · subst h2
          exact Or.inr ⟨rfl, hamt⟩
        · exact absurd h2 (List.not_mem_nil _)

def c7db : DB := ⟨[], [], [], [], [], [], [], 1⟩

/-- Counterexample to C7 as stated: create_journal_entry persists a
caller-supplied line whose debit and credit are both non-zero (a single such
line is balanced, so validation passes), so not every persisted line has
exactly one non-zero side. -/
theorem create_persists_two_sided_line :
    ∃ db', create_journal_entry c7db none ⟨2, 1, 1⟩ "r" "d" [⟨1, 5, 5, none⟩] none
        = (db', Except.ok 1) ∧
      ∃ l ∈ db'.journal_entry_lines, l.debit ≠ 0 ∧ l.credit ≠ 0 := by
  have hbal : ¬ ((1 : ℚ)/100 <
      |(([⟨1, 5, 5, none⟩] : List LineInput).map LineInput.debit).sum -
        (([⟨1, 5, 5, none⟩] : List LineInput).map LineInput.credit).sum|) := by
    norm_num
  refine ⟨⟨[], [⟨1, none, ⟨2, 1, 1⟩, "r", "d", none, true, false⟩], [⟨1, 1, 5, 5, none⟩],
    [], [], [], [], 2⟩, ?_, ?_⟩
  · unfold create_journal_entry
    rw [if_neg hbal]
    rfl
  · exact ⟨⟨1, 1, 5, 5, none⟩, by simp, by norm_num, by norm_num⟩

/-! ## Claim C2 -/

/-- calculate_account_balance: signed all-time balance of one account; debit
minus credit for asset and expense accounts, credit minus debit otherwise. -/
def calculate_account_balance (db : DB) (account_id : Nat) : ℚ :=
  match db.accounts.find? (fun a => a.id == account_id) with
  | none => 0
  | some account =>
    let lines := db.journal_entry_lines.filter (fun l => l.account_id == account_id)
    let total_debits := (lines.map JournalEntryLineRec.debit).sum
    let total_credits := (lines.map JournalEntryLineRec.credit).sum
    if account.account_type = "asset" ∨ account.account_type = "expense" then
      total_debits - total_credits
    else
      total_credits - total_debits

structure TrialBalanceRow where
  account_code : String
  account_name : String
  account_type : String
  debit_balance : ℚ
  credit_balance : ℚ
deriving DecidableEq

structure TrialBalanceReport where
  accounts : List TrialBalanceRow
  total_debits : ℚ
  total_credits : ℚ
  is_balanced : Bool
deriving DecidableEq

/-- The account loop of get_trial_balance: skip balances below 0.01, place
the rest in the debit or credit column by normal-balance convention (a
negative balance flips columns). -/
def trial_balance_rows (db : DB) : List AccountRec → List TrialBalanceRow
  | [] => []
  | account :: rest =>
    let balance := calculate_account_balance db account.id
    if |balance| < 1/100 then trial_balance_rows db rest
    else
      let dc : ℚ × ℚ :=
        if account.account_type = "asset" ∨ account.account_type = "expense" then
          (if 0 ≤ balance then (balance, 0) else (0, |balance|))
        else
          (if 0 ≤ balance then (0, balance) else (|balance|, 0))
      { account_code := account.code, account_name := account.name,
        account_type := account.account_type,
        debit_balance := dc.1, credit_balance := dc.2 } :: trial_balance_rows db rest

/-- get_trial_balance over the active accounts.  (The source orders accounts
by code and accumulates the two totals inside the loop; the totals are
order-independent sums of the rows' columns.) -/
def get_trial_balance (db : DB) : TrialBalanceReport :=
  let rows := trial_balance_rows db (db.accounts.filter (fun a => a.is_active))
  { accounts := rows,
    total_debits := (rows.map TrialBalanceRow.debit_balance).sum,
    total_credits := (rows.map TrialBalanceRow.credit_balance).sum,
    is_balanced := decide
      (|(rows.map TrialBalanceRow.debit_balance).sum -
        (rows.map TrialBalanceRow.credit_balance).sum| < 1/100) }

/-- Ledger states reachable from an empty journal (over some chart of
accounts with distinct ids) by successful create_journal_entry,
auto_generate_journal_entry, and accrual postings. -/
inductive ReachableLedger : DB → Prop where
  | init (db : DB) (hacc : (db.accounts.map AccountRec.id).Nodup)
      (hlines : db.journal_entry_lines = []) (hentries : db.journal_entries = []) :
      ReachableLedger db
  | create {db db' : DB} {lid : Option Nat} {d : Date} {r ds : String}
      {lines : List LineInput} {memo : Option String} {jeid : Nat}
      (hstep : create_journal_entry db lid d r ds lines memo = (db', Except.ok jeid))
      (h : ReachableLedger db) : ReachableLedger db'
  | auto {db db' : DB} {le : LedgerEntryRec} {cat : Option String} {jeid : Nat}
      (hstep : auto_generate_journal_entry db le cat = (db', some jeid))
      (h : ReachableLedger db) : ReachableLedger db'
  | accrual_asset {db : DB} (entry : AmortizationEntryRec) (claim : ClaimRightRec)
      (uid now : Nat) (dry_run : Bool) (h : ReachableLedger db) :
      ReachableLedger (process_asset_claim_accrual db entry claim uid dry_run now).1
  | accrual_liability {db : DB} (entry : AmortizationEntryRec) (claim : ClaimRightRec)
      (uid now : Nat) (dry_run : Bool) (h : ReachableLedger db) :
      ReachableLedger (process_liability_claim_accrual db entry claim uid dry_run now).1

def c2db0 : DB :=
  ⟨[⟨1, "1110", "A1", "asset", true⟩, ⟨2, "1120", "A2", "asset", true⟩,
    ⟨3, "1130", "A3", "asset", true⟩, ⟨4, "2100", "L", "liability", true⟩],
   [], [], [], [], [], [], 10⟩

def c2lines : List LineInput :=
  [⟨1, 9/1000, 0, none⟩, ⟨2, 9/1000, 0, none⟩, ⟨3, 9/1000, 0, none⟩, ⟨4, 0, 27/1000, none⟩]

def c2db1 : DB :=
  ⟨[⟨1, "1110", "A1", "asset", true⟩, ⟨2, "1120", "A2", "asset", true⟩,
    ⟨3, "1130", "A3", "asset", true⟩, ⟨4, "2100", "L", "liability", true⟩],
   [⟨10, none, ⟨2, 1, 1⟩, "r", "d", none, true, false⟩],
   [⟨10, 1, 9/1000, 0, none⟩, ⟨10, 2, 9/1000, 0, none⟩, ⟨10, 3, 9/1000, 0, none⟩,
    ⟨10, 4, 0, 27/1000, none⟩],
   [], [], [], [], 11⟩

/-- Counterexample to C2 as stated: one successful (exactly balanced)
create_journal_entry posting 0.009 to three asset accounts against a 0.027
credit yields a reachable state whose trial balance omits the three small
balances and reports is_balanced = false. -/
theorem trial_balance_unbalanced_reachable :
    ReachableLedger c2db1 ∧ (get_trial_balance c2db1).is_balanced = false := by
  have hbal : ¬ ((1 : ℚ)/100 <
      |(c2lines.map LineInput.debit).sum - (c2lines.map LineInput.credit).sum|) := by
    norm_num [c2lines]
  have hstep : create_journal_entry c2db0 none ⟨2, 1, 1⟩ "r" "d" c2lines none
      = (c2db1, Except.ok 10) := by
    unfold create_journal_entry
    rw [if_neg hbal]
    rfl
  constructor
  · exact ReachableLedger.create hstep (ReachableLedger.init c2db0 (by decide) rfl rfl)
  · have hliab : ¬ (("liability" : String) = "asset" ∨ ("liability" : String) = "expense") :=
      by decide
    norm_num [get_trial_balance, trial_balance_rows, calculate_account_balance, c2db1,
      List.filter_cons, List.find?_cons, hliab, abs_of_nonneg, abs_of_nonpos]

theorem sum_map_sub {α : Type} (l : List α) (f g : α → ℚ) :
    (l.map (fun x => f x - g x)).sum = (l.map f).sum - (l.map g).sum := by
  induction l with
  | nil => simp
  | cons x xs ih =>
    simp only [List.map_cons, List.sum_cons, ih]
    ring

theorem sum_map_add {α : Type} (l : List α) (f g : α → ℚ) :
    (l.map (fun x => f x + g x)).sum = (l.map f).sum + (l.map g).sum := by
  induction l with
  | nil => simp
  | cons x xs ih =>
    simp only [List.map_cons, List.sum_cons, ih]
    ring

theorem find_self_of_nodup {accts : List AccountRec}
    (hnodup : (accts.map AccountRec.id).Nodup) {a : AccountRec} (ha : a ∈ accts) :
    accts.find? (fun x => x.id == a.id) = some a := by
  induction accts with
  | nil => cases ha
  | cons b rest ih =>
    rw [List.map_cons, List.nodup_cons] at hnodup
    rcases List.mem_cons.mp ha with rfl | hmem
    · simp [List.find?_cons]
    · have hb : (b.id == a.id) = false := by
        rw [beq_eq_false_iff_ne]
        intro he
        exact hnodup.1 (he ▸ List.mem_map_of_mem AccountRec.id hmem)
      rw [List.find?_cons, hb]
      exact ih hnodup.2 hmem

theorem sum_ite_zero (aid : Nat) (v : ℚ) (accts : List AccountRec)
    (h : aid ∉ accts.map AccountRec.id) :
    (accts.map (fun a => if aid == a.id then v else 0)).sum = 0 := by
  induction accts with
  | nil => rfl
  | cons b rest ih =>
    rw [List.map_cons] at h
    have hb : (aid == b.id) = false := by
      rw [beq_eq_false_iff_ne]
      intro he
      exact h (he ▸ List.mem_cons_self _ _)
    simp only [List.map_cons, List.sum_cons, hb, if_false, Bool.false_eq_true]
    rw [ih (fun hmem => h (List.mem_cons_of_mem _ hmem))]
    ring

theorem sum_ite_id (aid : Nat) (v : ℚ) (accts : List AccountRec)
    (hnodup : (accts.map AccountRec.id).Nodup) (hmem : ∃ a ∈ accts, aid = a.id) :
    (accts.map (fun a => if aid == a.id then v else 0)).sum = v := by
  induction accts with
  | nil => obtain ⟨a, ha, -⟩ := hmem; cases ha
  | cons b rest ih =>
    rw [List.map_cons, List.nodup_cons] at hnodup
    obtain ⟨a, ha, haid⟩ := hmem
    rcases List.mem_cons.mp ha with rfl | hrest
    · have hb : (aid == a.id) = true := beq_iff_eq.mpr haid
      simp only [List.map_cons, List.sum_cons, hb, if_true]
      rw [sum_ite_zero aid v rest (haid ▸ hnodup.1)]
      ring
    · have hb : (aid == b.id) = false := by
        rw [beq_eq_false_iff_ne]
        intro he
        exact hnodup.1 (he ▸ haid ▸ List.mem_map_of_mem AccountRec.id hrest)
      simp only [List.map_cons, List.sum_cons, hb, if_false, Bool.false_eq_true]
      rw [ih hnodup.2 ⟨a, hrest, haid⟩]
      ring

/-- Each journal line contributes its debit minus credit to exactly one
account of a chart with distinct ids, so the per-account net debits sum to
the ledger-wide net debit. -/
theorem sum_net_debit (accts : List AccountRec)
    (hnodup : (accts.map AccountRec.id).Nodup) :
    ∀ lines : List JournalEntryLineRec,
    (∀ l ∈ lines, ∃ a ∈ accts, l.account_id = a.id) →
    (accts.map (fun a =>
      ((lines.filter (fun l => l.account_id == a.id)).map JournalEntryLineRec.debit).sum -
      ((lines.filter (fun l => l.account_id == a.id)).map
        JournalEntryLineRec.credit).sum)).sum
      = (lines.map (fun l => l.debit - l.credit)).sum := by
  intro lines
  induction lines with
  | nil =>
    intro _
    simp
  | cons l ls ih =>
    intro hcov
    have hterm : ∀ a ∈ accts,
        ((((l :: ls).filter (fun x => x.account_id == a.id)).map
            JournalEntryLineRec.debit).sum -
          (((l :: ls).filter (fun x => x.account_id == a.id)).map
            JournalEntryLineRec.credit).sum)
        = ((if l.account_id == a.id then l.debit - l.credit else 0) +
            (((ls.filter (fun x => x.account_id == a.id)).map
              JournalEntryLineRec.debit).sum -
             ((ls.filter (fun x => x.account_id == a.id)).map
              JournalEntryLineRec.credit).sum)) := by
      intro a _
      rw [List.filter_cons]
      by_cases h : (l.account_id == a.id) = true
      · rw [if_pos h, if_pos h]
        simp only [List.map_cons, List.sum_cons]
        ring
      · rw [if_neg h, if_neg h]
        ring
    rw [List.map_congr_left hterm, sum_map_add, sum_ite_id l.account_id (l.debit - l.credit)
      accts hnodup ⟨(hcov l (List.mem_cons_self _ _)).choose,
        (hcov l (List.mem_cons_self _ _)).choose_spec.1,
        (hcov l (List.mem_cons_self _ _)).choose_spec.2⟩,
      ih (fun x hx => hcov x (List.mem_cons_of_mem _ hx))]
    simp only [List.map_cons, List.sum_cons]

/-- The signed trial-balance rows recover each listed account's net debit. -/
theorem trial_balance_rows_sum (db : DB) :
    ∀ accts : List AccountRec,
    (∀ a ∈ accts, calculate_account_balance db a.id = 0 ∨
      1/100 ≤ |calculate_account_balance db a.id|) →
    (∀ a ∈ accts, db.accounts.find? (fun x => x.id == a.id) = some a) →
    ((trial_balance_rows db accts).map TrialBalanceRow.debit_balance).sum -
      ((trial_balance_rows db accts).map TrialBalanceRow.credit_balance).sum =
    (accts.map (fun a =>
      ((db.journal_entry_lines.filter (fun l => l.account_id == a.id)).map
        JournalEntryLineRec.debit).sum -
      ((db.journal_entry_lines.filter (fun l => l.account_id == a.id)).map
        JournalEntryLineRec.credit).sum)).sum := by
  intro accts
  induction accts with
  | nil =>
    intro _ _
    simp [trial_balance_rows]
  | cons a rest ih =>
    intro hbalcond hfind
    have hcalc : calculate_account_balance db a.id =
        (if a.account_type = "asset" ∨ a.account_type = "expense" then
          ((db.journal_entry_lines.filter (fun l => l.account_id == a.id)).map
            JournalEntryLineRec.debit).sum -
          ((db.journal_entry_lines.filter (fun l => l.account_id == a.id)).map
            JournalEntryLineRec.credit).sum
        else
          ((db.journal_entry_lines.filter (fun l => l.account_id == a.id)).map
            JournalEntryLineRec.credit).sum -
          ((db.journal_entry_lines.filter (fun l => l.account_id == a.id)).map
            JournalEntryLineRec.debit).sum) := by
      unfold calculate_account_balance
      rw [hfind a (List.mem_cons_self _ _)]
    have ihr := ih (fun x hx => hbalcond x (List.mem_cons_of_mem _ hx))
      (fun x hx => hfind x (List.mem_cons_of_mem _ hx))
    rw [trial_balance_rows]
    by_cases hsmall : |calculate_account_balance db a.id| < 1/100
    · rw [if_pos hsmall]
      have hzero : calculate_account_balance db a.id = 0 := by
        rcases hbalcond a (List.mem_cons_self _ _) with h0 | h0
        · exact h0
        · exact absurd hsmall (by rw [not_lt]; exact h0)
      have hnet : ((db.journal_entry_lines.filter (fun l => l.account_id == a.id)).map
            JournalEntryLineRec.debit).sum -
          ((db.journal_entry_lines.filter (fun l => l.account_id == a.id)).map
            JournalEntryLineRec.credit).sum = 0 := by
        rw [hcalc] at hzero
        split_ifs at hzero with hty
        · exact hzero
        · linarith
      rw [List.map_cons, List.sum_cons, hnet, ihr]
      ring
    · rw [if_neg hsmall]
      simp only [List.map_cons, List.sum_cons]
      have hrow : (if a.account_type = "asset" ∨ a.account_type = "expense" then
            (if 0 ≤ calculate_account_balance db a.id then
              (calculate_account_balance db a.id, (0 : ℚ))
             else ((0 : ℚ), |calculate_account_balance db a.id|))
          else
            (if 0 ≤ calculate_account_balance db a.id then
              ((0 : ℚ), calculate_account_balance db a.id)
             else (|calculate_account_balance db a.id|, (0 : ℚ)))).1 -
          (if a.account_type = "asset" ∨ a.account_type = "expense" then
            (if 0 ≤ calculate_account_balance db a.id then
              (calculate_account_balance db a.id, (0 : ℚ))
             else ((0 : ℚ), |calculate_account_balance db a.id|))
          else
            (if 0 ≤ calculate_account_balance db a.id then
              ((0 : ℚ), calculate_account_balance db a.id)
             else (|calculate_account_balance db a.id|, (0 : ℚ)))).2 =
          ((db.journal_entry_lines.filter (fun l => l.account_id == a.id)).map
            JournalEntryLineRec.debit).sum -
          ((db.journal_entry_lines.filter (fun l => l.account_id == a.id)).map
            JournalEntryLineRec.credit).sum := by


        split_ifs with hty hpos hpos
        · rw [hcalc, if_pos hty]
          dsimp only
          ring
        · rw [abs_of_neg (by linarith)]
          rw [hcalc, if_pos hty]
          dsimp only
          ring
        · rw [hcalc, if_neg hty]
          dsimp only
          ring
        · rw [abs_of_neg (by linarith)]
          rw [hcalc, if_neg hty]
          dsimp only
          ring
      linarith [ihr, hrow]

/-- C2 (amended): the trial balance reports is_balanced = true for every
reachable ledger state in which the chart's account ids are distinct and its
accounts active, every line posts to an existing account, the persisted lines
balance exactly in total (as they do when every entry balances exactly), and
no account's balance falls strictly between 0 and 0.01 in absolute value.
As stated the claim is false: the per-entry 0.01 tolerance and the omission
of accounts with |balance| < 0.01 can each push the totals apart (see the
counterexample). -/
theorem trial_balance_balanced_of_exact :
    ∀ db : DB, ReachableLedger db →
    (db.accounts.map AccountRec.id).Nodup →
    (∀ a ∈ db.accounts, a.is_active = true) →
    (∀ l ∈ db.journal_entry_lines, ∃ a ∈ db.accounts, l.account_id = a.id) →
    (db.journal_entry_lines.map JournalEntryLineRec.debit).sum =
      (db.journal_entry_lines.map JournalEntryLineRec.credit).sum →
    (∀ a ∈ db.accounts, calculate_account_balance db a.id = 0 ∨
      1/100 ≤ |calculate_account_balance db a.id|) →
    (get_trial_balance db).is_balanced = true := by
  intro db hreach hnodup hactive hcov hexact hbalcond
  have hfilter : db.accounts.filter (fun a => a.is_active) = db.accounts :=
    List.filter_eq_self.mpr (fun a ha => by rw [hactive a ha])
  have hfind : ∀ a ∈ db.accounts, db.accounts.find? (fun x => x.id == a.id) = some a :=
    fun a ha => find_self_of_nodup hnodup ha
  have hsum1 := trial_balance_rows_sum db db.accounts hbalcond hfind
  have hsum2 := sum_net_debit db.accounts hnodup db.journal_entry_lines hcov
  simp only [get_trial_balance, hfilter]
  apply decide_eq_true
  rw [hsum1, hsum2, sum_map_sub, hexact]
  norm_num

def c2dbW : DB :=
  ⟨[⟨1, "1000", "Cash", "asset", true⟩], [], [], [], [], [], [], 2⟩

theorem trial_balance_balanced_of_exact_witness :
    (get_trial_balance c2dbW).is_balanced = true :=
  trial_balance_balanced_of_exact c2dbW
    (ReachableLedger.init c2dbW (by decide) rfl rfl)
    (by decide)
    (by decide)
    (by decide)
    rfl
    (by
      intro a ha
      rcases List.mem_cons.mp ha with rfl | h
      · left
        norm_num [calculate_account_balance, c2dbW, List.find?_cons]
      · cases h)

/-! ## Claim C9 -/

/-- C9: generate_amortization_schedule is idempotent per claim right: called
on a claim right that already has a schedule it creates no second schedule and
no additional entries (the store is unchanged) and returns the existing
schedule. -/
theorem generate_schedule_idempotent (db : DB) (claim_right_id : Nat)
    (claim : ClaimRightRec) (sched : AmortizationScheduleRec)
    (hc : db.claim_rights.find? (fun c => c.id == claim_right_id) = some claim)
    (hs : db.amortization_schedules.find? (fun s => s.claim_right_id == claim_right_id)
      = some sched) :
    generate_amortization_schedule db claim_right_id = (db, Except.ok sched) := by
  unfold generate_amortization_schedule
  rw [hc, hs]

theorem generate_schedule_idempotent_witness :
    generate_amortization_schedule
      ⟨[], [], [], [],
        [⟨1, 1, none, "ASSET_CLAIM", "d", 100, 100, 0, ⟨2, 1, 1⟩, ⟨2, 2, 1⟩, "monthly",
          "active", none, none, true, true⟩],
        [⟨2, 1, 1, 100, true⟩], [], 5⟩ 1 =
    (⟨[], [], [], [],
        [⟨1, 1, none, "ASSET_CLAIM", "d", 100, 100, 0, ⟨2, 1, 1⟩, ⟨2, 2, 1⟩, "monthly",
          "active", none, none, true, true⟩],
        [⟨2, 1, 1, 100, true⟩], [], 5⟩, Except.ok ⟨2, 1, 1, 100, true⟩) :=
  generate_schedule_idempotent _ 1 _ _ rfl rfl

end AAL
